import Mathlib

/-!
Sonic Arcade bot: session, permit and game-play orchestration.

A shallow embedding of `src/src/app.js` (class `App`) and `src/src/index.js`
(`play`, `run`).

Conventions of the embedding

* An asynchronous method of `App` becomes a function `App → Except String α × App`:
  the first component is `Except.ok` when the method returns and `Except.error m`
  when it throws an error whose message is `m`; the second component is the
  instance after the call.  A throw keeps every assignment made before it.
* Everything observable that the instance does is appended to `App.trace`:
  timed waits and network requests, each request together with what
  `App.fetch` produced for it.
* The network is an oracle `Env.http : Nat → NetOutcome`; the `n`-th request the
  instance sends (counting from zero, field `App.sent`) receives `Env.http n`.
* Relay answers are typed: a body is a JSON object with the members the code
  reads (`status`, `message`, `error.message`, `result.hashKey`,
  `result.typedMessage`, `result.hash.errorTypes`, `today`, `totalPoints`).
* Log lines (`log.info`, `log.error`) are not recorded.
-/

namespace SonicArcade

deriving instance DecidableEq for Except

/-! ## Strings -/

/-- Whether the character list `p` starts the character list `s`. -/
def startsWithChars : List Char → List Char → Bool
  | [], _ => true
  | _ :: _, [] => false
  | a :: p, b :: s => a == b && startsWithChars p s

/-- Whether `needle` occurs inside `hay` (a scan over all the suffixes of `hay`). -/
def includesChars : List Char → List Char → Bool
  | [], needle => startsWithChars needle []
  | c :: hay, needle => startsWithChars needle (c :: hay) || includesChars hay needle

/-- JavaScript `s.includes(t)`. -/
def includes (s t : String) : Bool := includesChars s.data t.data

/-- JavaScript `s.startsWith(t)`. -/
def startsWith (s t : String) : Bool := startsWithChars t.data s.data

/-- How a template literal prints a value that may be `undefined`. -/
def render : Option String → String
  | some s => s
  | none => "undefined"

/-! ## Relay answers -/

/-- The `error` member of a relay answer. -/
structure RpcError where
  message : Option String
  deriving DecidableEq, Repr

/-- The `result.hash` member: `errorTypes` is its truthiness, `details` is
`actualError.details`. -/
structure HashInfo where
  errorTypes : Bool
  details : Option String
  deriving DecidableEq, Repr

/-- The `result` member of a relay answer. -/
structure RpcResult where
  hashKey : Option String := none
  typedMessage : Option String := none
  hash : Option HashInfo := none
  deriving DecidableEq, Repr

/-- The `json` member of a user record, of which the code reads `invitedCode`. -/
structure UserInfo where
  invitedCode : Option String
  deriving DecidableEq, Repr

/-- A parsed response body (a JSON object or array), as seen by the code. The member
`user0` stands for the path `[0].result.data`: `none` when the path is absent (reading
it throws), otherwise the value of its `json` member. -/
structure Body where
  status : Option Nat := none
  message : Option String := none
  error : Option RpcError := none
  result : Option RpcResult := none
  today : Option Int := none
  totalPoints : Option Int := none
  user0 : Option (Option UserInfo) := none
  deriving DecidableEq, Repr

/-- What `response.json()` resolves to: an object (or array), on which a property can
be set, or a primitive (`null`, a number, a string, a boolean), on which it cannot. -/
inductive JsonValue where
  | object (b : Body)
  | primitive
  deriving DecidableEq, Repr

/-- What a method call produced: a value, or a thrown error with its message. -/
inductive Thrown (α : Type) where
  | value (a : α)
  | threw (message : String)
  deriving DecidableEq, Repr

/-- An HTTP response as delivered by the platform `fetch`. `json` and `text` are what
`response.json()` and `response.text()` produce for it. -/
structure HttpResponse where
  status : Nat
  statusText : String
  contentType : Option String
  json : Thrown JsonValue
  text : Thrown String
  deriving DecidableEq, Repr

/-- The Fetch standard's `response.ok`: the status is in the range 200 to 299. -/
def HttpResponse.ok (r : HttpResponse) : Bool := decide (200 ≤ r.status) && decide (r.status ≤ 299)

/-- What the platform `fetch` does with a request: it throws, or delivers a response. -/
inductive NetOutcome where
  | failed (message : String)
  | response (r : HttpResponse)
  deriving DecidableEq, Repr

/-- The message of the TypeError thrown when a property is set on a primitive. -/
def cannotSetStatus : String := "Cannot create property status on a primitive value"

/-- The body of a response as `App.fetch` reads it: `response.json()` when the content
type includes `application/json`, otherwise `{ status, message: response.text() }`. -/
def readBody (r : HttpResponse) : Except String JsonValue :=
  let isJson : Bool :=
    match r.contentType with
    | some ct => !(ct == "") && includes ct "application/json"
    | none => false
  if isJson then
    match r.json with
    | .value v => .ok v
    | .threw m => .error m
  else
    match r.text with
    | .value t => .ok (.object { status := some r.status, message := some t })
    | .threw m => .error m

/-- The message of the error thrown for a response that is not ok. -/
def statusLine (r : HttpResponse) : String :=
  toString r.status ++ " - " ++ r.statusText

/-- The `try` block of `App.fetch` after the platform `fetch` has delivered `r`: read the
body, then either normalise the status to 200 or throw the status line. -/
def fetchBody (r : HttpResponse) : Except String Body :=
  match readBody r with
  | .error m => .error m
  | .ok v =>
    if r.ok then
      match v with
      | .object b => .ok { b with status := some 200 }
      | .primitive => .error cannotSetStatus
    else
      .error (statusLine r)

/-- The URL that `App.fetch` requests: `url` itself when it starts with `http`, otherwise
`url` after the base URL. -/
def requestUrl (baseUrl url : String) : String :=
  if startsWith url "http" then url else baseUrl ++ url

/-- The method `App.fetch(url, method, body, customHeaders, referer)`, for an instance whose
`baseUrl` is `baseUrl`, as a function of what the platform `fetch` does. -/
def fetch (baseUrl url : String) (o : NetOutcome) : Except String Body :=
  let attempt : Except String Body :=
    match o with
    | .failed m => .error m
    | .response r => fetchBody r
  match attempt with
  | .ok b => .ok b
  | .error m =>
    if includes (requestUrl baseUrl url) "something" && includes m "401" then
      .ok { status := some 200 }
    else
      .error m

/-! ## The instance, its environment and its trace -/

/-- The three games the constructor of `App` creates a status record and a limit flag for. -/
inductive Game where
  | plinko
  | singlewheel
  | mines
  deriving DecidableEq, Repr

/-- The property name of a game in `limitedGames` and `gameStatus`. -/
def Game.name : Game → String
  | .plinko => "plinko"
  | .singlewheel => "singlewheel"
  | .mines => "mines"

/-- The game a property name denotes, if any. -/
def Game.ofName (name : String) : Option Game :=
  if name = "plinko" then some .plinko
  else if name = "singlewheel" then some .singlewheel
  else if name = "mines" then some .mines
  else none

/-- An object with exactly the three properties `plinko`, `singlewheel` and `mines`. -/
structure PerGame (α : Type) where
  plinko : α
  singlewheel : α
  mines : α
  deriving DecidableEq, Repr

/-- Property read `obj[game]`. -/
def PerGame.get {α : Type} (m : PerGame α) : Game → α
  | .plinko => m.plinko
  | .singlewheel => m.singlewheel
  | .mines => m.mines

/-- Property write `obj[game] = v`. -/
def PerGame.set {α : Type} (m : PerGame α) (g : Game) (v : α) : PerGame α :=
  match g with
  | .plinko => { m with plinko := v }
  | .singlewheel => { m with singlewheel := v }
  | .mines => { m with mines := v }

/-- A status record `{ message, waiting }`. -/
structure GameStatus where
  message : String
  waiting : String
  deriving DecidableEq, Repr

/-- A relay call description `{ dest, data, value }`. -/
structure CallData where
  dest : String
  data : String
  value : String
  deriving DecidableEq, Repr

/-- The `params` member of a JSON-RPC envelope, by relay method. The `until` member of
`createSession` (the clock plus 24 hours) is left out. -/
inductive Params where
  | createSession (owner : String)
  | permitTypedMessage (owner : Option String)
  | permit (owner : Option String) (signature : Option String)
  | call (call : CallData) (owner : Option String) (part : Option String) (permit : Option String)
  | refund (game : String) (player : Option String)
  | reIterate (game : String) (player : Option String)
  deriving DecidableEq, Repr

/-- The `method` member that goes with the parameters. -/
def Params.method : Params → String
  | .createSession _ => "createSession"
  | .permitTypedMessage _ => "permitTypedMessage"
  | .permit _ _ => "permit"
  | .call _ _ _ _ => "call"
  | .refund _ _ => "refund"
  | .reIterate _ _ => "reIterate"

/-- A JSON-RPC envelope `{ jsonrpc: "2.0", id, method, params }`. -/
structure Envelope where
  id : Nat
  params : Params
  deriving DecidableEq, Repr

/-- A request handed to `App.fetch`: the URL, the HTTP method and, for a relay request,
the envelope that is its body. -/
structure Request where
  url : String
  verb : String
  envelope : Option Envelope
  deriving DecidableEq, Repr

/-- What the instance does that can be observed from outside. -/
inductive Event where
  | wait (ms : Nat) (message : String)
  | request (req : Request) (res : Except String Body)
  deriving DecidableEq, Repr

/-- The fields of an `App` instance, with the trace of what it has done and the number
of requests it has sent. `wallet` is the address of the wallet object, once connected. -/
structure App where
  baseUrl : String
  sessionId : Nat
  wallet : Option String
  today_points : Option Int
  total_points : Option Int
  account : String
  address : Option String
  smartAddress : Option String
  permitSignature : Option String
  part : Option String
  signatureMessage : Option String
  user : Option UserInfo
  balance : Option String
  limitedGames : PerGame Bool
  gameStatus : PerGame GameStatus
  trace : List Event
  sent : Nat
  deriving DecidableEq, Repr

/-- The constructor `new App(account, smartAddress, proxy)`. -/
def App.new (account : String) (smartAddress : Option String) : App where
  baseUrl := "https://arcade.soniclabs.com"
  sessionId := 1
  wallet := none
  today_points := none
  total_points := none
  account := account
  address := none
  smartAddress := smartAddress
  permitSignature := none
  part := none
  signatureMessage := none
  user := none
  balance := none
  limitedGames := { plinko := false, singlewheel := false, mines := false }
  gameStatus :=
    { plinko := { message := "pending", waiting := "-" }
      singlewheel := { message := "pending", waiting := "-" }
      mines := { message := "pending", waiting := "-" } }
  trace := []
  sent := 0

/-- What surrounds an instance: the configuration (`config.js`), the helpers of
`utils.js`, the signer (ethers) and the network. None of these is part of `app.js` or
`index.js`; each is a parameter.
`deriveWallet` is `getPrivateKeyType` followed by the wallet constructor, giving the
wallet address; `parseJson` is `JSON.parse`, its value kept as text; `signTypedData` is
`wallet.signTypedData` on the domain, types and message of the parsed value; `http n` is
what the platform `fetch` does with the `n`-th request of the instance. -/
structure Env where
  GAMES : String → Option CallData
  CONTRACT : String
  REFERRER_CODE : String
  accountNumber : Nat
  toHumanTime : Nat → String
  deriveWallet : String → Except String String
  readBalance : String → Except String String
  signMessage : String → Except String String
  parseJson : String → Except String String
  signTypedData : String → Except String String
  encodeApprove : Option String → Except String String
  encodeUserQuery : String → String
  http : Nat → NetOutcome

/-- Modelled from the spec: `wait(milliseconds, message, app)` of `utils.js`, which is not
among the sources; the spec calls the waits cooperative sleeps. It is recorded in the
trace and changes no field of the instance. -/
def wait (ms : Nat) (message : String) (s : App) : App :=
  { s with trace := s.trace ++ [.wait ms message] }

/-- The method `gameWait(game, milliseconds, message)`: it throws when `gameStatus` has no
record for `game`. -/
def gameWait (env : Env) (game : String) (ms : Nat) (message : String) (s : App) :
    Except String Unit × App :=
  match Game.ofName game with
  | none => (.error "Cannot set properties of undefined", s)
  | some g =>
    (.ok (), wait ms message
      { s with gameStatus := s.gameStatus.set g { message := message, waiting := env.toHumanTime ms } })

/-- One call of `this.fetch`: the request goes out, the platform answers with
`env.http s.sent`, and the request is recorded with what `fetch` made of the answer. -/
def send (env : Env) (req : Request) (s : App) : Except String Body × App :=
  let res := fetch s.baseUrl req.url (env.http s.sent)
  (res, { s with trace := s.trace ++ [.request req res], sent := s.sent + 1 })

/-- The relay endpoint. -/
def rpcUrl : String := "https://sonic-hub1.joinrebellion.com/rpc"

/-- The method `performRpcRequest(method, params)`, the method name being that of `params`. -/
def performRpcRequest (env : Env) (params : Params) (s : App) : Except String Body × App :=
  send env { url := rpcUrl, verb := "POST", envelope := some { id := s.sessionId, params := params } } s

/-- JavaScript truthiness of a string that may be `undefined`. -/
def truthy : Option String → Bool
  | some a => !(a == "")
  | none => false

/-- The method `createSession()`. -/
def createSession (env : Env) (s : App) : Except String Unit × App :=
  let s := wait 4000 "Creating session" s
  match s.wallet with
  | none => (.error "Cannot read properties of null", s)
  | some owner =>
    match send env { url := rpcUrl, verb := "POST",
                     envelope := some { id := s.sessionId, params := .createSession owner } } s with
    | (.error m, s) => (.error m, s)
    | (.ok response, s) =>
      let s := { s with sessionId := s.sessionId + 1 }
      if response.status = some 200 then
        (.ok (), wait 1000 "Session successfully created" s)
      else
        (.error "Failed to create session", s)

/-- The request of `getPoints`: a GET of the points of the smart address. -/
def pointsRequest (s : App) : Request :=
  { url := "https://arcade.gateway.soniclabs.com/game/points-by-player?wallet=" ++ render s.smartAddress,
    verb := "GET", envelope := none }

/-- The method `getPoints()`. -/
def getPoints (env : Env) (s : App) : Except String Unit × App :=
  if !truthy s.smartAddress then
    (.ok (), wait 500 "Smart address is not configured, skipping" s)
  else
    let s := wait 4000 "Checking current points" s
    match send env (pointsRequest s) s with
    | (.ok response, s) =>
      if response.status = some 200 then
        (.ok (), wait 1500 "Points successfully retrieved"
          { s with today_points := response.today, total_points := response.totalPoints })
      else
        (.ok (), s)
    | (.error _, s) => (.ok (), s)

/-- The method `reIterate(game)`. -/
def reIterate (env : Env) (game : String) (s : App) : Except String Unit × App :=
  let s := wait 1500 ("Reiterating game " ++ game ++ " due to missing random number") s
  match send env { url := rpcUrl, verb := "POST",
                   envelope := some { id := s.sessionId, params := .reIterate game s.smartAddress } } s with
  | (.error m, s) => (.error m, s)
  | (.ok response, s) =>
    let s := { s with sessionId := s.sessionId + 1 }
    if response.status = some 200 then
      (.ok (), wait 1500 ("Successfully reiterated game: " ++ game) s)
    else
      (.error ("Failed to reiterate game " ++ game), s)

/-- The method `refund(game)`. -/
def refund (env : Env) (game : String) (s : App) : Except String Unit × App :=
  let s := wait 1500 ("Refunding game " ++ game ++ " due to missing random number") s
  match send env { url := rpcUrl, verb := "POST",
                   envelope := some { id := s.sessionId, params := .refund game s.smartAddress } } s with
  | (.error m, s) => (.error m, s)
  | (.ok response, s) =>
    let s := { s with sessionId := s.sessionId + 1 }
    if response.status = some 200 then
      (.ok (), wait 1500 ("Successfully refunded game: " ++ game) s)
    else
      (.error "Failed to refund game", s)

/-- The method `permit()`. -/
def permit (env : Env) (s : App) : Except String Unit × App :=
  let s := wait 4000 "Submitting contract permit" s
  match performRpcRequest env (.permit s.address s.permitSignature) s with
  | (.error m, s) => (.error m, s)
  | (.ok response, s) =>
    let s := { s with sessionId := s.sessionId + 1 }
    match response.error with
    | none =>
      match response.result with
      | none => (.error "Cannot read properties of undefined", s)
      | some result =>
        (.ok (), wait 4000 "Permit submitted successfully" { s with part := result.hashKey })
    | some error => (.error ("Failed to submit permit: " ++ render error.message), s)

/-- The method `permitTypedMessage()`. -/
def permitTypedMessage (env : Env) (s : App) : Except String Unit × App :=
  let s := wait 4000 "Permitting Sonic Arcade contract" s
  match send env { url := rpcUrl, verb := "POST",
                   envelope := some { id := s.sessionId, params := .permitTypedMessage s.address } } s with
  | (.error m, s) => (.error m, s)
  | (.ok response, s) =>
    let s := { s with sessionId := s.sessionId + 1 }
    if response.status = some 200 then
      match response.result with
      | none => (.error "Cannot read properties of undefined", s)
      | some result =>
        match result.typedMessage with
        | none => (.error "Unexpected token in JSON", s)
        | some typedMessage =>
          match env.parseJson typedMessage with
          | .error m => (.error m, s)
          | .ok message =>
            let s := wait 500 "Permit successfully created" s
            let s := wait 500 "Approving permit message" s
            match env.signTypedData message with
            | .error m => (.error m, s)
            | .ok signature => permit env { s with permitSignature := some signature }
    else
      (.error "Failed to create Sonic Arcade session", s)

/-- The error message `response.error?.message || "Unknown"`. -/
def errorMessageOf (error : RpcError) : String :=
  match error.message with
  | some m => if m = "" then "Unknown" else m
  | none => "Unknown"

/-- The truthiness of `response.result?.hash?.errorTypes`. -/
def hashErrorTypes (response : Body) : Bool :=
  match response.result with
  | some result =>
    match result.hash with
    | some h => h.errorTypes
    | none => false
  | none => false

/-- The value of `response.result?.hash?.actualError?.details`. -/
def hashDetails (response : Body) : Option String :=
  match response.result with
  | some result =>
    match result.hash with
    | some h => h.details
    | none => none
  | none => none

/-- The part of `playGame(name)` that follows the `call`: the classification of the
relay answer `response`. -/
def playGameResponse (env : Env) (name : String) (response : Body) (s : App) :
    Except String Unit × App :=
  match response.error with
  | none => gameWait env name 4000 ("Successfully played game: [" ++ name ++ "]") s
  | some error =>
    let errorMessage := errorMessageOf error
    if includes errorMessage "limit" then
      match Game.ofName name with
      | some g => gameWait env name 4000 errorMessage
                    { s with limitedGames := s.limitedGames.set g true }
      | none => gameWait env name 4000 errorMessage s
    else if includes errorMessage "random number" then
      match gameWait env name 20000 errorMessage s with
      | (.error m, s) => (.error m, s)
      | (.ok (), s) => reIterate env name s
    else if includes errorMessage "Permit" then
      (.error "", s)
    else if hashErrorTypes response then
      (.ok (), wait 1500 ("Play game failed: " ++ render (hashDetails response)) s)
    else
      (.error ("Failed to play game: [" ++ name ++ "], error: " ++ errorMessage), s)

/-- The method `playGame(name)`. The error thrown for a `Permit` message is built from
the `errorMessage` property of a string, which is undefined, so its message is empty. -/
def playGame (env : Env) (name : String) (s : App) : Except String Unit × App :=
  match env.GAMES name with
  | none => (.error ("Undefined game: [" ++ name ++ "]"), s)
  | some callData =>
    match gameWait env name 4000 ("Playing game: [" ++ name ++ "]") s with
    | (.error m, s) => (.error m, s)
    | (.ok (), s) =>
      match performRpcRequest env (.call callData s.address s.part s.permitSignature) s with
      | (.error m, s) => (.error m, s)
      | (.ok response, s) => playGameResponse env name response { s with sessionId := s.sessionId + 1 }

/-- The method `playPlinko()`. -/
def playPlinko (env : Env) (s : App) : Except String Unit × App :=
  playGame env "plinko" s

/-- The method `playSinglewheel()`. -/
def playSinglewheel (env : Env) (s : App) : Except String Unit × App :=
  playGame env "singlewheel" s

/-- The fixed payload of the mines claim call. -/
def claimData : String :=
  "0x0d942fd00000000000000000000000008bbd8f37a3349d83c85de1f2e32b3fd2fce2468e0000000000000000000000000000000000000000000000000000000000000002000000000000000000000000e328a0b1e0be7043c9141c2073e408d1086e117500000000000000000000000000000000000000000000000000000000000000a000000000000000000000000000000000000000000000000000000000000000e00000000000000000000000000000000000000000000000000000000000000007656e6447616d65000000000000000000000000000000000000000000000000000000000000000000000000000000000000000000000000000000000000000000"

/-- The request of the mines claim call. -/
def claimRequest (env : Env) (s : App) : Request :=
  { url := rpcUrl, verb := "POST",
    envelope := some { id := s.sessionId,
                       params := .call { dest := env.CONTRACT, data := claimData, value := "0n" }
                                   s.address s.part s.permitSignature } }

/-- The part of `playMines()` that follows the claim call: the two tests on the relay
answer `response`. -/
def claimResponse (env : Env) (response : Body) (s : App) : Except String Unit × App :=
  let afterError : Except String Unit × App :=
    match response.error with
    | some error =>
      gameWait env "mines" 4000 ("Failed to claim mine game: " ++ render error.message) s
    | none => (.ok (), s)
  match afterError with
  | (.error m, s) => (.error m, s)
  | (.ok (), s) =>
    if hashErrorTypes response then
      gameWait env "mines" 4000 ("Claim failed: " ++ render (hashDetails response)) s
    else
      gameWait env "mines" 4000 "Successfully played and claimed mine game." s

/-- The method `playMines()`. -/
def playMines (env : Env) (s : App) : Except String Unit × App :=
  match playGame env "mines" s with
  | (.error m, s) => (.error m, s)
  | (.ok (), s) =>
    if s.limitedGames.get .mines then
      (.ok (), s)
    else
      match gameWait env "mines" 4000 "Placed" s with
      | (.error m, s) => (.error m, s)
      | (.ok (), s) =>
        match gameWait env "mines" 4000 "Claiming mine game reward" s with
        | (.error m, s) => (.error m, s)
        | (.ok (), s) =>
          match send env (claimRequest env s) s with
          | (.error m, s) => (.error m, s)
          | (.ok response, s) => claimResponse env response s

/-- The method `register()`. It calls itself again on every failure; `fuel` bounds the
number of calls, and `none` means the bound was reached. The first wait is started
without being awaited. -/
def register (env : Env) : Nat → App → Option App
  | 0, _ => none
  | fuel + 1, s =>
    let s := wait 15000 "Registering user key" s
    match env.encodeApprove s.address with
    | .error _ => register env fuel s
    | .ok data =>
      match send env { url := rpcUrl, verb := "POST",
                       envelope := some { id := 7,
                                          params := .call { dest := "0x4Cc7b0ddCD0597496E57C5325cf4c73dBA30cdc9",
                                                            data := data, value := "0n" }
                                                      s.address s.part s.permitSignature } } s with
      | (.error _, s) => register env fuel s
      | (.ok response, s) =>
        let s := { s with sessionId := s.sessionId + 1 }
        if response.status = some 200 then
          some (getPoints env (wait 1500 "User key registered" s)).2
        else
          register env fuel (wait 4000 "Failed to register user key" s)

/-- The method `connect()`. -/
def connect (env : Env) (s : App) : Except String Unit × App :=
  let s := wait 4000 ("Connecting to account: " ++ toString env.accountNumber) s
  match env.deriveWallet s.account with
  | .error m => (.error m, s)
  | .ok address =>
    (.ok (), wait 4000 ("Wallet address: \"" ++ address ++ "\"")
      { s with wallet := some address, address := some address })

/-- The method `getBalance()`, called without argument. -/
def getBalance (env : Env) (s : App) : Except String Unit × App :=
  match s.wallet with
  | none => (.error "Cannot read properties of null", s)
  | some owner =>
    let s := wait 500 ("Reading balance: " ++ owner) s
    match env.readBalance owner with
    | .error m => (.error m, s)
    | .ok balance => (.ok (), wait 500 ("Balance updated: " ++ balance) { s with balance := some balance })

/-- The method `connectToSonic()`. -/
def connectToSonic (env : Env) (s : App) : Except String Unit × App :=
  let s := wait 4000 "Connecting to Sonic Arcade" s
  let messageToSign :=
    "I\x27m joining Sonic Airdrop Dashboard with my wallet, referred by " ++ env.REFERRER_CODE
      ++ ", and I agree to the terms and conditions.\nWallet address:\n" ++ s.address.getD "null" ++ "\n"
  match s.wallet with
  | none => (.error "Cannot read properties of null", s)
  | some _ =>
    match env.signMessage messageToSign with
    | .error m => (.error m, s)
    | .ok signature =>
      (.ok (), wait 4000 "Successfully connected to Sonic Dapp" { s with signatureMessage := some signature })

/-- The method `getUser()`. -/
def getUser (env : Env) (s : App) : Except String Unit × App :=
  let s := wait 4000 "Reading user information" s
  match s.wallet with
  | none => (.error "Cannot read properties of null", s)
  | some owner =>
    match send env { url := "https://airdrop.soniclabs.com/api/trpc/user.findOrCreate?batch=1&input="
                              ++ env.encodeUserQuery owner,
                     verb := "GET", envelope := none } s with
    | (.error m, s) => (.error m, s)
    | (.ok response, s) =>
      if response.status = some 200 then
        match response.user0 with
        | none => (.error "Cannot read properties of undefined", s)
        | some user => (.ok (), wait 500 "User information successfully retrieved" { s with user := user })
      else
        (.error "Failed to get user information", s)

/-- The method `tryToUpdateReferrer()`: whatever is thrown inside is caught and logged. -/
def tryToUpdateReferrer (env : Env) (s : App) : Except String Unit × App :=
  let s := wait 4000 "Verifying referral code" s
  match s.user with
  | none => (.ok (), s)
  | some user =>
    match user.invitedCode with
    | none =>
      match s.wallet with
      | none => (.ok (), s)
      | some _ =>
        match send env { url := "/api/trpc/user.setInvited?batch=1", verb := "POST", envelope := none } s with
        | (.error _, s) => (.ok (), s)
        | (.ok response, s) =>
          if response.status = some 200 then
            (.ok (), (getUser env (wait 4000 "Referral code successfully updated" s)).2)
          else
            (.ok (), s)
    | some _ => (.ok (), wait 4000 "Referral code is already set" s)

/-! ## The driving loop and the cycle (`index.js`) -/

/-- How a loop bounded by fuel ends: it returns, it throws, or it is still running when
the fuel is used up. -/
inductive LoopResult where
  | returned
  | raised (message : String)
  | running
  deriving DecidableEq, Repr

/-- The call `app[method]()` of `play`, the method name being `play` followed by the
capitalised game name. -/
def playMethod (env : Env) (g : Game) (s : App) : Except String Unit × App :=
  match g with
  | .plinko => playPlinko env s
  | .singlewheel => playSinglewheel env s
  | .mines => playMines env s

/-- The `try` block of `play`: one play attempt followed by the points refresh. -/
def attempt (env : Env) (g : Game) (s : App) : Except String Unit × App :=
  match playMethod env g s with
  | (.error m, s) => (.error m, s)
  | (.ok (), s) => getPoints env s

/-- The body of the `while` loop of `play`: the `try` block with its `catch`. The error
object handed to `gameWait` as the message is represented by its message. -/
def playBody (env : Env) (g : Game) (s : App) : Except String Unit × App :=
  match attempt env g s with
  | (.ok (), s) => (.ok (), s)
  | (.error m, s) => gameWait env g.name 30000 m s

/-- The function `play(app, game)`, for the three games `run` calls it with; `fuel` bounds
the number of iterations of the loop. -/
def play (env : Env) (g : Game) : Nat → App → LoopResult × App
  | 0, s => if s.limitedGames.get g then (.returned, s) else (.running, s)
  | fuel + 1, s =>
    if s.limitedGames.get g then (.returned, s)
    else
      match playBody env g s with
      | (.error m, s) => (.raised m, s)
      | (.ok (), s) => play env g fuel s

/-- Sequencing of an awaited method call inside the `try` block of `run`. -/
def andThen (r : Except String Unit × App) (k : App → LoopResult × App) : LoopResult × App :=
  match r with
  | (.error m, s) => (.raised m, s)
  | (.ok (), s) => k s

/-- Sequencing of an awaited `play` inside the `try` block of `run`. -/
def loopThen (r : LoopResult × App) (k : App → LoopResult × App) : LoopResult × App :=
  match r with
  | (.returned, s) => k s
  | (.raised m, s) => (.raised m, s)
  | (.running, s) => (.running, s)

/-- The two-hour pause at the end of a cycle, in milliseconds. -/
def cycleDuration : Nat := 2 * 3600 * 1000

/-- The `try` block of `run` up to the pause before the next cycle. -/
def runSteps (env : Env) (fuel : Nat) (s : App) : LoopResult × App :=
  andThen (connect env s) fun s =>
  andThen (getBalance env s) fun s =>
  andThen (connectToSonic env s) fun s =>
  andThen (getUser env s) fun s =>
  andThen (getPoints env s) fun s =>
  andThen (tryToUpdateReferrer env s) fun s =>
  andThen (createSession env s) fun s =>
  andThen (permitTypedMessage env s) fun s =>
  loopThen (play env .plinko fuel s) fun s =>
  loopThen (play env .mines fuel s) fun s =>
  loopThen (play env .singlewheel fuel s) fun s =>
  (.returned, wait cycleDuration ("Waiting for the next cycle: " ++ env.toHumanTime cycleDuration) s)

/-- One cycle of `run(account, smartAddress, proxy)`: a new instance, the `try` block, and
the 60 second pause of the `catch`; what follows in either case is the next cycle, on a
new instance. -/
def runCycle (env : Env) (fuel : Nat) (account : String) (smartAddress : Option String) :
    LoopResult × App :=
  match runSteps env fuel (App.new account smartAddress) with
  | (.returned, s) => (.returned, s)
  | (.raised m, s) =>
    (.returned, wait 60000 ("Error: " ++ (if m = "" then "\x7b\x7d" else m) ++ ". Retrying in 60 seconds") s)
  | (.running, s) => (.running, s)

/-! ## A concrete environment for evaluating the definitions -/

/-- A game table with the three games of the constructor. -/
def demoGames (name : String) : Option CallData :=
  if name = "plinko" then some { dest := "0xA1", data := "0x01", value := "0n" }
  else if name = "singlewheel" then some { dest := "0xA2", data := "0x02", value := "0n" }
  else if name = "mines" then some { dest := "0xA3", data := "0x03", value := "0n" }
  else none

/-- An HTTP 200 response whose JSON body is `b`. -/
def jsonAnswer (b : Body) : NetOutcome :=
  .response { status := 200, statusText := "OK", contentType := some "application/json",
              json := .value (.object b), text := .threw "body already read" }

/-- A relay answer `{ error: { message } }`. -/
def errorAnswer (message : String) : NetOutcome :=
  jsonAnswer { error := some { message := some message } }

/-- An environment with a working signer and the given network. -/
def demoEnv (http : Nat → NetOutcome) : Env where
  GAMES := demoGames
  CONTRACT := "0xC0"
  REFERRER_CODE := "ref"
  accountNumber := 1
  toHumanTime := fun ms => toString ms ++ "ms"
  deriveWallet := fun _ => .ok "0xOwner"
  readBalance := fun _ => .ok "1.0"
  signMessage := fun _ => .ok "0xSigned"
  parseJson := fun text => .ok text
  signTypedData := fun _ => .ok "0xPermitSig"
  encodeApprove := fun _ => .ok "0xApprove"
  encodeUserQuery := fun a => a
  http := http

/-- An instance after a permit was accepted with hash key `0xABC`. -/
def demoApp : App :=
  { App.new "0xKey" (some "0xSmart") with
    wallet := some "0xOwner", address := some "0xOwner",
    permitSignature := some "0xPermitSig", part := some "0xABC", sessionId := 4, sent := 6 }

/-- A relay that rejects the first request of `demoApp` with `Permit expired` and
answers every other request with `limit reached`. -/
def permitRejectingEnv : Env :=
  demoEnv fun n => if n = 6 then errorAnswer "Permit expired" else errorAnswer "limit reached"

/-- An HTTP 401 response with a text body. -/
def unauthorized : HttpResponse :=
  { status := 401, statusText := "Unauthorized", contentType := some "text/plain",
    json := .threw "Unexpected token", text := .value "denied" }

/-- An HTTP 204 response announced as JSON, whose empty body `response.json()` rejects. -/
def noContent : HttpResponse :=
  { status := 204, statusText := "No Content", contentType := some "application/json",
    json := .threw "Unexpected end of JSON input", text := .value "" }

/-- An HTTP 201 response with the JSON body `{ result: {} }`. -/
def created : HttpResponse :=
  { status := 201, statusText := "Created", contentType := some "application/json",
    json := .value (.object { result := some {} }), text := .threw "body already read" }

/-- An HTTP 500 response with a text body. -/
def serverError : HttpResponse :=
  { status := 500, statusText := "Internal Server Error", contentType := some "text/html",
    json := .threw "Unexpected token", text := .value "oops" }

/-- The `id` member of an event that is a relay request. -/
def Event.relayId : Event → Option Nat
  | .request req _ => req.envelope.map Envelope.id
  | .wait _ _ => none

/-- A relay that accepts everything: every answer is a JSON object with a user record, a
typed message and the hash key `0xABC`. -/
def acceptingEnv : Env :=
  demoEnv fun _ => jsonAnswer
    { result := some { hashKey := some "0xABC", typedMessage := some "typed" },
      user0 := some (some { invitedCode := some "code" }) }

/-! ## Reading a trace -/

/-- Whether an event is a relay request with the given method. -/
def Event.isMethod (method : String) : Event → Bool
  | .request req _ =>
    match req.envelope with
    | some envelope => envelope.params.method == method
    | none => false
  | .wait _ _ => false

/-- Whether an event is a relay request (a request with a JSON-RPC envelope). -/
def Event.isRelay : Event → Bool
  | .request req _ => req.envelope.isSome
  | .wait _ _ => false

/-- The relay request `call` that `playGame` sends from the instance `s` with payload `cd`. -/
def callRequest (cd : CallData) (s : App) : Request :=
  { url := rpcUrl, verb := "POST",
    envelope := some { id := s.sessionId, params := .call cd s.address s.part s.permitSignature } }

/-- The `part` member of a relay request `call`, if the request is one. -/
def Request.callPart (req : Request) : Option (Option String) :=
  match req.envelope with
  | some envelope =>
    match envelope.params with
    | .call _ _ part _ => some part
    | _ => none
  | none => none

/-- The `part` member of an event that is a relay request `call`. -/
def Event.callPart : Event → Option (Option String)
  | .request req _ => req.callPart
  | .wait _ _ => none

/-- Whether an event is a `permit` request that the relay answered without an error
member and with a result whose hash key is `key`. -/
def Event.acceptedPermit (key : Option String) : Event → Prop
  | .request req (.ok b) =>
    (∃ id owner signature, req.envelope = some { id := id, params := .permit owner signature }) ∧
      b.error = none ∧ ∃ result, b.result = some result ∧ result.hashKey = key
  | _ => False

/-- The instance `s'` is the instance `s` some steps of game play later: the permit, the
capability token and the address are the same, and what was appended to the trace has
no `permit` request and only `call` requests that carry the token of `s`. -/
def Step (s s' : App) : Prop :=
  s'.part = s.part ∧ s'.permitSignature = s.permitSignature ∧ s'.address = s.address ∧
    ∃ evs, s'.trace = s.trace ++ evs ∧
      (∀ ev ∈ evs, ∀ p, Event.callPart ev = some p → p = s.part) ∧
      (∀ ev ∈ evs, Event.isMethod "permit" ev = false)

/-- The instance `s'` is the instance `s` later, and no `call` request was sent in between. -/
def Quiet (s s' : App) : Prop :=
  ∃ evs, s'.trace = s.trace ++ evs ∧ ∀ ev ∈ evs, Event.callPart ev = none

/-- Every `call` request of the trace comes after a `permit` request of the same trace that
the relay answered without an error member, and the `part` it carries is the hash key of
that answer. -/
def CallsGuarded (tr : List Event) : Prop :=
  ∀ pre ev post, tr = pre ++ ev :: post → ∀ p, Event.callPart ev = some p →
    ∃ q ∈ pre, Event.acceptedPermit p q

/-- Whether a relay answer has an error member whose message contains `limit`. -/
def hasLimitError (b : Body) : Bool :=
  match b.error with
  | some error =>
    match error.message with
    | some m => includes m "limit"
    | none => false
  | none => false

/-- A relay that accepts the first request of `demoApp` (the mines `call`) and answers
every later relay request (the claim `call`) with the error `claim rejected`. -/
def claimRejectingEnv : Env :=
  demoEnv fun n => if n = 6 then jsonAnswer {} else errorAnswer "claim rejected"

/-! ## Lemmas -/

theorem Game.ofName_name (g : Game) : Game.ofName g.name = some g := by
  cases g <;> rfl

theorem PerGame.get_set_self {α : Type} (m : PerGame α) (g : Game) (v : α) :
    (m.set g v).get g = v := by
  cases g <;> rfl

theorem PerGame.get_set_other {α : Type} (m : PerGame α) (g h : Game) (v : α) (hne : h ≠ g) :
    (m.set g v).get h = m.get h := by
  cases g <;> cases h <;> first | rfl | exact absurd rfl hne

theorem includes_ne_empty {m t : String} (ht : t ≠ "") (h : includes m t = true) : m ≠ "" := by
  intro hm
  subst hm
  have : t.data ≠ [] := fun h0 => ht (by cases t; simp_all)
  cases hd : t.data with
  | nil => exact this hd
  | cons c cs => simp [includes, hd, includesChars, startsWithChars] at h

theorem errorMessageOf_some {e : RpcError} {m t : String} (hm : e.message = some m)
    (ht : t ≠ "") (h : includes m t = true) : errorMessageOf e = m := by
  have := includes_ne_empty ht h
  simp [errorMessageOf, hm, this]

/-- What `playGame` does when the relay answers the `call` with an error whose message
contains `limit`. -/
theorem playGame_limit (env : Env) (name : String) (g : Game) (s : App) (cd : CallData)
    (b : Body) (e : RpcError)
    (hg : Game.ofName name = some g) (hG : env.GAMES name = some cd)
    (hf : fetch s.baseUrl rpcUrl (env.http s.sent) = .ok b) (he : b.error = some e)
    (hm : includes (errorMessageOf e) "limit" = true) :
    playGame env name s =
      (.ok (),
        { s with
          sessionId := s.sessionId + 1
          sent := s.sent + 1
          limitedGames := s.limitedGames.set g true
          gameStatus := (s.gameStatus.set g
              { message := "Playing game: [" ++ name ++ "]", waiting := env.toHumanTime 4000 }).set g
              { message := errorMessageOf e, waiting := env.toHumanTime 4000 }
          trace := s.trace ++ [.wait 4000 ("Playing game: [" ++ name ++ "]"),
                               .request (callRequest cd s) (.ok b),
                               .wait 4000 (errorMessageOf e)] }) := by
  simp [playGame, playGameResponse, hG, gameWait, hg, performRpcRequest, send, wait, hf, he, hm,
    callRequest]

/-- What `getPoints` leaves alone: it returns, it sends no relay request, and only the
points, the trace and the request count can differ afterwards. -/
theorem getPoints_frame (env : Env) (s : App) :
    ∃ evs, (getPoints env s).1 = .ok () ∧ (getPoints env s).2.trace = s.trace ++ evs ∧
      (∀ ev ∈ evs, Event.isRelay ev = false) ∧
      (getPoints env s).2.limitedGames = s.limitedGames ∧
      (getPoints env s).2.gameStatus = s.gameStatus ∧
      (getPoints env s).2.sessionId = s.sessionId ∧
      (getPoints env s).2.part = s.part ∧
      (getPoints env s).2.permitSignature = s.permitSignature ∧
      (getPoints env s).2.address = s.address := by
  unfold getPoints
  split
  · exact ⟨[.wait 500 "Smart address is not configured, skipping"], by simp [wait, Event.isRelay]⟩
  · simp only [send, wait, pointsRequest]
    split
    · rename_i response s1 heq
      simp only [Prod.mk.injEq] at heq
      obtain ⟨h1, h2⟩ := heq
      subst h2
      split
      · exact ⟨[.wait 4000 "Checking current points", .request (pointsRequest s) (.ok response),
            .wait 1500 "Points successfully retrieved"], by simp [Event.isRelay, h1, pointsRequest]⟩
      · exact ⟨[.wait 4000 "Checking current points", .request (pointsRequest s) (.ok response)],
          by simp [Event.isRelay, h1, pointsRequest]⟩
    · rename_i m s1 heq
      simp only [Prod.mk.injEq] at heq
      obtain ⟨h1, h2⟩ := heq
      subst h2
      exact ⟨[.wait 4000 "Checking current points", .request (pointsRequest s) (.error m)],
        by simp [Event.isRelay, h1, pointsRequest]⟩

theorem play_of_limited (env : Env) (g : Game) (fuel : Nat) (s : App)
    (h : s.limitedGames.get g = true) : play env g fuel s = (.returned, s) := by
  cases fuel <;> simp [play, h]

/-- Under a `limit` answer the play method of every game is the single `playGame`: for
mines the claim call is skipped. -/
theorem playMethod_limit (env : Env) (g : Game) (s : App) (cd : CallData)
    (b : Body) (e : RpcError)
    (hG : env.GAMES g.name = some cd)
    (hf : fetch s.baseUrl rpcUrl (env.http s.sent) = .ok b) (he : b.error = some e)
    (hm : includes (errorMessageOf e) "limit" = true) :
    playMethod env g s = playGame env g.name s := by
  have hpg := playGame_limit env g.name g s cd b e (Game.ofName_name g) hG hf he hm
  cases g
  · rfl
  · rfl
  · have hpg' : playGame env "mines" s = _ := hpg
    simp only [playMethod, playMines, Game.name, hpg', PerGame.get_set_self]
    simp

/-- C1: when the relay answers the first `call` for a configured game `g` with an error
whose message contains `limit`, the loop `play(app, g)` started with the flag of `g`
unset returns after one iteration whatever the fuel: the flag of `g` is then set, and
what the instance did is one wait, the one `call`, one wait, and then events of the
points refresh, none of which is a relay request (so no second `call` and, for mines, no
claim call). -/
theorem play_limit_terminates_after_one_attempt (env : Env) (g : Game) (s : App)
    (cd : CallData) (b : Body) (e : RpcError) (m : String)
    (hG : env.GAMES g.name = some cd) (hl : s.limitedGames.get g = false)
    (hf : fetch s.baseUrl rpcUrl (env.http s.sent) = .ok b) (he : b.error = some e)
    (hmsg : e.message = some m) (hm : includes m "limit" = true) :
    ∃ s' evs, (∀ fuel, play env g (fuel + 1) s = (.returned, s')) ∧
      s'.limitedGames.get g = true ∧
      s'.trace = s.trace ++ [.wait 4000 ("Playing game: [" ++ g.name ++ "]"),
                             .request (callRequest cd s) (.ok b), .wait 4000 m] ++ evs ∧
      (∀ ev ∈ evs, Event.isRelay ev = false) := by
  have hem : errorMessageOf e = m := errorMessageOf_some hmsg (by decide) hm
  have hm' : includes (errorMessageOf e) "limit" = true := by rw [hem]; exact hm
  have hmeth := playMethod_limit env g s cd b e hG hf he hm'
  obtain ⟨s1, hs1, hl1, ht1⟩ : ∃ s1, playGame env g.name s = (.ok (), s1) ∧
      s1.limitedGames = s.limitedGames.set g true ∧
      s1.trace = s.trace ++ [.wait 4000 ("Playing game: [" ++ g.name ++ "]"),
                             .request (callRequest cd s) (.ok b), .wait 4000 m] :=
    ⟨_, playGame_limit env g.name g s cd b e (Game.ofName_name g) hG hf he hm', rfl, by rw [hem]⟩
  rw [hs1] at hmeth
  obtain ⟨evs, h1, h2, h3, h4, -⟩ := getPoints_frame env s1
  have hlim : (getPoints env s1).2.limitedGames.get g = true := by
    rw [h4, hl1]; exact PerGame.get_set_self _ _ _
  refine ⟨(getPoints env s1).2, evs, ?_, hlim, by rw [h2, ht1], h3⟩
  intro fuel
  have hbody : playBody env g s = (.ok (), (getPoints env s1).2) := by
    simp only [playBody, attempt, hmeth]
    rw [← Prod.mk.eta (p := getPoints env s1), h1]
  rw [play, if_neg (by simp [hl])]
  simp only [hbody]
  exact play_of_limited env g fuel _ hlim

/-- C1 at a concrete input: mines, a relay that answers the first `call` with
`limit reached`. -/
theorem play_limit_terminates_after_one_attempt_witness :
    ∃ s' evs, (∀ fuel, play (demoEnv fun _ => errorAnswer "limit reached") .mines (fuel + 1) demoApp
        = (.returned, s')) ∧
      s'.limitedGames.get .mines = true ∧
      s'.trace = demoApp.trace ++ [.wait 4000 ("Playing game: [" ++ Game.mines.name ++ "]"),
        .request (callRequest { dest := "0xA3", data := "0x03", value := "0n" } demoApp)
          (.ok { status := some 200, error := some { message := some "limit reached" } }),
        .wait 4000 "limit reached"] ++ evs ∧
      (∀ ev ∈ evs, Event.isRelay ev = false) :=
  play_limit_terminates_after_one_attempt (demoEnv fun _ => errorAnswer "limit reached") .mines
    demoApp { dest := "0xA3", data := "0x03", value := "0n" }
    { status := some 200, error := some { message := some "limit reached" } }
    { message := some "limit reached" } "limit reached"
    (by decide) (by decide) (by decide) (by decide) (by decide) (by decide)

/-- The relay request that `reIterate(game)` sends from the instance `s`. -/
theorem reIterate_trace (env : Env) (game : String) (s : App) :
    ∃ res tail, (reIterate env game s).2.trace =
        s.trace ++ [.wait 1500 ("Reiterating game " ++ game ++ " due to missing random number"),
          .request { url := rpcUrl, verb := "POST",
                     envelope := some { id := s.sessionId, params := .reIterate game s.smartAddress } } res]
          ++ tail ∧
      (∀ ev ∈ tail, Event.isRelay ev = false) ∧
      (reIterate env game s).2.limitedGames = s.limitedGames := by
  unfold reIterate
  simp only [send, wait]
  split
  · rename_i m s1 heq
    simp only [Prod.mk.injEq] at heq
    obtain ⟨h1, h2⟩ := heq
    subst h2
    exact ⟨.error m, [], by simp [h1]⟩
  · rename_i response s1 heq
    simp only [Prod.mk.injEq] at heq
    obtain ⟨h1, h2⟩ := heq
    subst h2
    split
    · exact ⟨.ok response, [.wait 1500 ("Successfully reiterated game: " ++ game)],
        by simp [h1, Event.isRelay]⟩
    · exact ⟨.ok response, [], by simp [h1]⟩

/-- What `playGame` does up to the call of `reIterate` when the relay answers the `call`
with an error whose message contains `random number` and not `limit`. -/
theorem playGame_random_number (env : Env) (name : String) (g : Game) (s : App) (cd : CallData)
    (b : Body) (e : RpcError)
    (hg : Game.ofName name = some g) (hG : env.GAMES name = some cd)
    (hf : fetch s.baseUrl rpcUrl (env.http s.sent) = .ok b) (he : b.error = some e)
    (hl : includes (errorMessageOf e) "limit" = false)
    (hm : includes (errorMessageOf e) "random number" = true) :
    playGame env name s =
      reIterate env name
        { s with
          sessionId := s.sessionId + 1
          sent := s.sent + 1
          gameStatus := (s.gameStatus.set g
              { message := "Playing game: [" ++ name ++ "]", waiting := env.toHumanTime 4000 }).set g
              { message := errorMessageOf e, waiting := env.toHumanTime 20000 }
          trace := s.trace ++ [.wait 4000 ("Playing game: [" ++ name ++ "]"),
                               .request (callRequest cd s) (.ok b),
                               .wait 20000 (errorMessageOf e)] } := by
  simp [playGame, playGameResponse, hG, gameWait, hg, performRpcRequest, send, wait, hf, he, hl, hm,
    callRequest]

/-- C2 (as amended): for every game name that is configured and has a status record, when
the relay answers the `call` with an error whose message contains `random number` and
does not contain `limit`, `playGame` waits 20000 ms on the game, then sends one
`reIterate` request with params `{ game, player: smartAddress }` and no other relay
request, and leaves every limit flag as it was. -/
theorem playGame_random_number_reiterates_once (env : Env) (name : String) (g : Game) (s : App)
    (cd : CallData) (b : Body) (e : RpcError) (m : String)
    (hg : Game.ofName name = some g) (hG : env.GAMES name = some cd)
    (hf : fetch s.baseUrl rpcUrl (env.http s.sent) = .ok b) (he : b.error = some e)
    (hmsg : e.message = some m)
    (hm : includes m "random number" = true) (hl : includes m "limit" = false) :
    (∃ res tail, (playGame env name s).2.trace =
        s.trace ++ [.wait 4000 ("Playing game: [" ++ name ++ "]"),
          .request (callRequest cd s) (.ok b),
          .wait 20000 m,
          .wait 1500 ("Reiterating game " ++ name ++ " due to missing random number"),
          .request { url := rpcUrl, verb := "POST",
                     envelope := some { id := s.sessionId + 1,
                                        params := .reIterate name s.smartAddress } } res]
          ++ tail ∧
      (∀ ev ∈ tail, Event.isRelay ev = false)) ∧
    (playGame env name s).2.limitedGames = s.limitedGames := by
  have hem : errorMessageOf e = m := errorMessageOf_some hmsg (by decide) hm
  have hpg := playGame_random_number env name g s cd b e hg hG hf he
    (by rw [hem]; exact hl) (by rw [hem]; exact hm)
  rw [hem] at hpg
  rw [hpg]
  obtain ⟨res, tail, h1, h2, h3⟩ := reIterate_trace env name
    { s with
      sessionId := s.sessionId + 1
      sent := s.sent + 1
      gameStatus := (s.gameStatus.set g
          { message := "Playing game: [" ++ name ++ "]", waiting := env.toHumanTime 4000 }).set g
          { message := m, waiting := env.toHumanTime 20000 }
      trace := s.trace ++ [.wait 4000 ("Playing game: [" ++ name ++ "]"),
                           .request (callRequest cd s) (.ok b),
                           .wait 20000 m] }
  refine ⟨⟨res, tail, ?_, h2⟩, h3⟩
  rw [h1]
  simp

/-- C2 at a concrete input: plinko, a relay that answers the `call` with
`random number not ready`. -/
theorem playGame_random_number_reiterates_once_witness :
    (∃ res tail, (playGame (demoEnv fun _ => errorAnswer "random number not ready") "plinko"
          demoApp).2.trace =
        demoApp.trace ++ [.wait 4000 ("Playing game: [" ++ "plinko" ++ "]"),
          .request (callRequest { dest := "0xA1", data := "0x01", value := "0n" } demoApp)
            (.ok { status := some 200, error := some { message := some "random number not ready" } }),
          .wait 20000 "random number not ready",
          .wait 1500 ("Reiterating game " ++ "plinko" ++ " due to missing random number"),
          .request { url := rpcUrl, verb := "POST",
                     envelope := some { id := demoApp.sessionId + 1,
                                        params := .reIterate "plinko" demoApp.smartAddress } } res]
          ++ tail ∧
      (∀ ev ∈ tail, Event.isRelay ev = false)) ∧
    (playGame (demoEnv fun _ => errorAnswer "random number not ready") "plinko"
      demoApp).2.limitedGames = demoApp.limitedGames :=
  playGame_random_number_reiterates_once (demoEnv fun _ => errorAnswer "random number not ready")
    "plinko" .plinko demoApp { dest := "0xA1", data := "0x01", value := "0n" }
    { status := some 200, error := some { message := some "random number not ready" } }
    { message := some "random number not ready" } "random number not ready"
    (by decide) (by decide) (by decide) (by decide) (by decide) (by decide) (by decide)

/-- C2 fails as stated: the message `rate limit: random number unavailable` contains
`random number`, yet `playGame` marks plinko limited and sends no `reIterate` request,
because the test for `limit` comes first. -/
theorem playGame_random_number_counterexample :
    includes "rate limit: random number unavailable" "random number" = true ∧
    (playGame (demoEnv fun _ => errorAnswer "rate limit: random number unavailable") "plinko"
      demoApp).2.limitedGames.get .plinko = true ∧
    demoApp.limitedGames.get .plinko = false ∧
    ((playGame (demoEnv fun _ => errorAnswer "rate limit: random number unavailable") "plinko"
      demoApp).2.trace.filter (Event.isMethod "reIterate")) = [] := by
  decide

/-! ## Steps of game play -/

theorem Step.here (s : App) : Step s s :=
  ⟨rfl, rfl, rfl, [], by simp, by simp, by simp⟩

theorem Step.seq {a b c : App} (h1 : Step a b) (h2 : Step b c) : Step a c := by
  obtain ⟨p1, q1, r1, e1, t1, c1, m1⟩ := h1
  obtain ⟨p2, q2, r2, e2, t2, c2, m2⟩ := h2
  refine ⟨Eq.trans p2 p1, Eq.trans q2 q1, Eq.trans r2 r1, e1 ++ e2, ?_, ?_, ?_⟩
  · rw [t2, t1, List.append_assoc]
  · intro ev hev p hp
    rcases List.mem_append.mp hev with h | h
    · exact c1 ev h p hp
    · rw [← p1]; exact c2 ev h p hp
  · intro ev hev
    rcases List.mem_append.mp hev with h | h
    · exact m1 ev h
    · exact m2 ev h

/-- A change of fields other than the permit, the token, the address and the trace. -/
theorem Step.of_fields {s s' : App} (hp : s'.part = s.part)
    (hq : s'.permitSignature = s.permitSignature) (ha : s'.address = s.address)
    (ht : s'.trace = s.trace) : Step s s' :=
  ⟨hp, hq, ha, [], by simp [ht], by simp, by simp⟩

theorem step_wait (ms : Nat) (message : String) (s : App) : Step s (wait ms message s) :=
  ⟨rfl, rfl, rfl, [.wait ms message], rfl, by simp [Event.callPart], by simp [Event.isMethod]⟩

theorem step_gameWait (env : Env) (game : String) (ms : Nat) (message : String) (s : App) :
    Step s (gameWait env game ms message s).2 := by
  unfold gameWait
  split
  · exact Step.here s
  · exact Step.seq (Step.of_fields rfl rfl rfl rfl) (step_wait _ _ _)

theorem step_send (env : Env) (req : Request) (s : App)
    (hc : ∀ p, req.callPart = some p → p = s.part)
    (hm : Event.isMethod "permit" (.request req (.ok {})) = false) :
    Step s (send env req s).2 := by
  refine ⟨rfl, rfl, rfl, [.request req (fetch s.baseUrl req.url (env.http s.sent))], rfl, ?_, ?_⟩
  · intro ev hev p hp
    simp only [List.mem_singleton] at hev
    subst hev
    exact hc p hp
  · intro ev hev
    simp only [List.mem_singleton] at hev
    subst hev
    simpa [Event.isMethod] using hm

theorem step_reIterate (env : Env) (game : String) (s : App) :
    Step s (reIterate env game s).2 := by
  unfold reIterate
  dsimp only
  have h0 := step_wait 1500 ("Reiterating game " ++ game ++ " due to missing random number") s
  have hs := step_send env
    { url := rpcUrl, verb := "POST",
      envelope := some { id := (wait 1500 ("Reiterating game " ++ game ++ " due to missing random number") s).sessionId,
                         params := .reIterate game
                          (wait 1500 ("Reiterating game " ++ game ++ " due to missing random number") s).smartAddress } }
    (wait 1500 ("Reiterating game " ++ game ++ " due to missing random number") s)
    (by simp [Request.callPart]) (by simp [Event.isMethod, Params.method])
  split
  · rename_i m s1 heq
    simp only [heq] at hs
    exact h0.seq hs
  · rename_i response s1 heq
    simp only [heq] at hs
    split
    · exact h0.seq (hs.seq ((Step.of_fields rfl rfl rfl rfl).seq (step_wait _ _ _)))
    · exact h0.seq (hs.seq (Step.of_fields rfl rfl rfl rfl))

theorem step_getPoints (env : Env) (s : App) : Step s (getPoints env s).2 := by
  obtain ⟨evs, -, h2, h3, -, -, -, h7, h8, h9⟩ := getPoints_frame env s
  refine ⟨h7, h8, h9, evs, h2, ?_, ?_⟩
  · intro ev hev p hp
    have := h3 ev hev
    cases ev with
    | wait ms m => simp [Event.callPart] at hp
    | request req res =>
      simp only [Event.isRelay] at this
      cases hreq : req.envelope with
      | none => simp [Event.callPart, Request.callPart, hreq] at hp
      | some envelope => simp [hreq] at this
  · intro ev hev
    have := h3 ev hev
    cases ev with
    | wait ms m => rfl
    | request req res =>
      simp only [Event.isRelay] at this
      cases hreq : req.envelope with
      | none => simp [Event.isMethod, hreq]
      | some envelope => simp [hreq] at this

theorem step_playGameResponse (env : Env) (name : String) (response : Body) (s : App) :
    Step s (playGameResponse env name response s).2 := by
  unfold playGameResponse
  split
  · exact step_gameWait _ _ _ _ _
  · dsimp only
    split
    · split
      · exact (Step.of_fields rfl rfl rfl rfl).seq (step_gameWait _ _ _ _ _)
      · exact step_gameWait _ _ _ _ _
    · split
      · rename_i error herr hne hrn
        have hw := step_gameWait env name 20000 (errorMessageOf error) s
        split
        · rename_i m s1 heq
          simp only [heq] at hw
          exact hw
        · rename_i s1 heq
          simp only [heq] at hw
          exact hw.seq (step_reIterate _ _ _)
      · split
        · exact Step.here s
        · split
          · exact step_wait _ _ _
          · exact Step.here s

theorem step_playGame (env : Env) (name : String) (s : App) :
    Step s (playGame env name s).2 := by
  unfold playGame
  split
  · exact Step.here s
  · rename_i callData hG
    have hw := step_gameWait env name 4000 ("Playing game: [" ++ name ++ "]") s
    split
    · rename_i m s1 heq
      simp only [heq] at hw
      exact hw
    · rename_i s1 heq
      simp only [heq] at hw
      have hs := step_send env
        { url := rpcUrl, verb := "POST",
          envelope := some { id := s1.sessionId,
                             params := .call callData s1.address s1.part s1.permitSignature } } s1
        (by simp [Request.callPart]) (by simp [Event.isMethod, Params.method])
      unfold performRpcRequest
      split
      · rename_i m s2 heq2
        simp only [heq2] at hs
        exact hw.seq hs
      · rename_i response s2 heq2
        simp only [heq2] at hs
        exact hw.seq (hs.seq ((Step.of_fields rfl rfl rfl rfl).seq (step_playGameResponse _ _ _ _)))

theorem step_claimResponse (env : Env) (response : Body) (s : App) :
    Step s (claimResponse env response s).2 := by
  unfold claimResponse
  dsimp only
  split
  · rename_i m s1 heq
    split at heq
    · rename_i error herr
      have hw := step_gameWait env "mines" 4000 ("Failed to claim mine game: " ++ render error.message) s
      simp only [heq] at hw
      exact hw
    · simp at heq
  · rename_i s1 heq
    have h1 : Step s s1 := by
      split at heq
      · rename_i error herr
        have hw := step_gameWait env "mines" 4000
          ("Failed to claim mine game: " ++ render error.message) s
        simp only [heq] at hw
        exact hw
      · simp only [Prod.mk.injEq, true_and] at heq
        subst heq
        exact Step.here s
    split
    · exact h1.seq (step_gameWait _ _ _ _ _)
    · exact h1.seq (step_gameWait _ _ _ _ _)

theorem step_playMines (env : Env) (s : App) : Step s (playMines env s).2 := by
  unfold playMines
  have hg := step_playGame env "mines" s
  split
  · rename_i m s1 heq
    simp only [heq] at hg
    exact hg
  · rename_i s1 heq
    simp only [heq] at hg
    split
    · exact hg
    · have hw1 := step_gameWait env "mines" 4000 "Placed" s1
      split
      · rename_i m s2 heq2
        simp only [heq2] at hw1
        exact hg.seq hw1
      · rename_i s2 heq2
        simp only [heq2] at hw1
        have hw2 := step_gameWait env "mines" 4000 "Claiming mine game reward" s2
        split
        · rename_i m s3 heq3
          simp only [heq3] at hw2
          exact hg.seq (hw1.seq hw2)
        · rename_i s3 heq3
          simp only [heq3] at hw2
          have hs := step_send env (claimRequest env s3) s3
            (by simp [Request.callPart, claimRequest])
            (by simp [Event.isMethod, Params.method, claimRequest])
          split
          · rename_i m s4 heq4
            simp only [heq4] at hs
            exact hg.seq (hw1.seq (hw2.seq hs))
          · rename_i response s4 heq4
            simp only [heq4] at hs
            exact hg.seq (hw1.seq (hw2.seq (hs.seq (step_claimResponse _ _ _))))

theorem step_playMethod (env : Env) (g : Game) (s : App) : Step s (playMethod env g s).2 := by
  cases g
  · exact step_playGame env "plinko" s
  · exact step_playGame env "singlewheel" s
  · exact step_playMines env s

theorem step_attempt (env : Env) (g : Game) (s : App) : Step s (attempt env g s).2 := by
  unfold attempt
  have hm := step_playMethod env g s
  split
  · rename_i m s1 heq
    simp only [heq] at hm
    exact hm
  · rename_i s1 heq
    simp only [heq] at hm
    exact hm.seq (step_getPoints _ _)

theorem step_playBody (env : Env) (g : Game) (s : App) : Step s (playBody env g s).2 := by
  unfold playBody
  have ha := step_attempt env g s
  split
  · rename_i s1 heq
    simp only [heq] at ha
    exact ha
  · rename_i m s1 heq
    simp only [heq] at ha
    exact ha.seq (step_gameWait _ _ _ _ _)

/-- The body of the loop never throws: the wait of the `catch` is on one of the three
games, whose status record exists. -/
theorem playBody_ok (env : Env) (g : Game) (s : App) : (playBody env g s).1 = .ok () := by
  unfold playBody
  split
  · rfl
  · simp [gameWait, Game.ofName_name]

theorem play_succ_of_not_limited (env : Env) (g : Game) (fuel : Nat) (s : App)
    (h : s.limitedGames.get g = false) :
    play env g (fuel + 1) s = play env g fuel (playBody env g s).2 := by
  have hok := playBody_ok env g s
  rw [play, if_neg (by simp [h])]
  rw [← Prod.mk.eta (p := playBody env g s), hok]

theorem step_play (env : Env) (g : Game) (fuel : Nat) (s : App) :
    Step s (play env g fuel s).2 := by
  induction fuel generalizing s with
  | zero =>
    unfold play
    split <;> exact Step.here s
  | succ n ih =>
    cases h : s.limitedGames.get g with
    | true => rw [play_of_limited env g _ s h]; exact Step.here s
    | false =>
      rw [play_succ_of_not_limited env g n s h]
      exact (step_playBody env g s).seq (ih _)

/-! ## The start of a play attempt -/

/-- A configured game with a status record: `playGame` waits, sends the `call`, and what
follows is further steps of game play. -/
theorem playGame_starts (env : Env) (name : String) (g : Game) (s : App) (cd : CallData)
    (hg : Game.ofName name = some g) (hG : env.GAMES name = some cd) :
    ∃ res s3, s3.trace = s.trace ++ [.wait 4000 ("Playing game: [" ++ name ++ "]"),
                                     .request (callRequest cd s) res] ∧
      Step s3 (playGame env name s).2 := by
  simp only [playGame, hG, gameWait, hg, performRpcRequest, send, wait]
  cases hf : fetch s.baseUrl rpcUrl (env.http s.sent) with
  | error m =>
    exact ⟨.error m, _, by simp [callRequest], Step.here _⟩
  | ok response =>
    refine ⟨.ok response, _, ?_, (Step.of_fields rfl rfl rfl rfl).seq (step_playGameResponse _ _ _ _)⟩
    simp [callRequest]

theorem step_playMines_rest (env : Env) (s : App) :
    Step (playGame env "mines" s).2 (playMines env s).2 := by
  unfold playMines
  split
  · rename_i m s1 heq
    simp only [heq]
    exact Step.here _
  · rename_i s1 heq
    simp only [heq]
    split
    · exact Step.here _
    · have hw1 := step_gameWait env "mines" 4000 "Placed" s1
      split
      · rename_i m s2 heq2
        simp only [heq2] at hw1
        exact hw1
      · rename_i s2 heq2
        simp only [heq2] at hw1
        have hw2 := step_gameWait env "mines" 4000 "Claiming mine game reward" s2
        split
        · rename_i m s3 heq3
          simp only [heq3] at hw2
          exact hw1.seq hw2
        · rename_i s3 heq3
          simp only [heq3] at hw2
          have hs := step_send env (claimRequest env s3) s3
            (by simp [Request.callPart, claimRequest])
            (by simp [Event.isMethod, Params.method, claimRequest])
          split
          · rename_i m s4 heq4
            simp only [heq4] at hs
            exact hw1.seq (hw2.seq hs)
          · rename_i response s4 heq4
            simp only [heq4] at hs
            exact hw1.seq (hw2.seq (hs.seq (step_claimResponse _ _ _)))

theorem step_playMethod_rest (env : Env) (g : Game) (s : App) :
    Step (playGame env g.name s).2 (playMethod env g s).2 := by
  cases g
  · exact Step.here _
  · exact Step.here _
  · exact step_playMines_rest env s

theorem step_attempt_rest (env : Env) (g : Game) (s : App) :
    Step (playMethod env g s).2 (attempt env g s).2 := by
  unfold attempt
  split
  · rename_i m s1 heq
    simp only [heq]
    exact Step.here _
  · rename_i s1 heq
    simp only [heq]
    exact step_getPoints _ _

theorem step_playBody_rest (env : Env) (g : Game) (s : App) :
    Step (attempt env g s).2 (playBody env g s).2 := by
  unfold playBody
  split
  · rename_i s1 heq
    simp only [heq]
    exact Step.here _
  · rename_i m s1 heq
    simp only [heq]
    exact step_gameWait _ _ _ _ _

/-- Every iteration of the loop on a configured game starts with the wait of `playGame`
and the `call` built from the instance at the start of the iteration. -/
theorem playBody_starts (env : Env) (g : Game) (s : App) (cd : CallData)
    (hG : env.GAMES g.name = some cd) :
    ∃ res tail, (playBody env g s).2.trace =
      s.trace ++ [.wait 4000 ("Playing game: [" ++ g.name ++ "]"),
                  .request (callRequest cd s) res] ++ tail := by
  obtain ⟨res, s3, h3, hstep⟩ := playGame_starts env g.name g s cd (Game.ofName_name g) hG
  obtain ⟨-, -, -, evs, ht, -, -⟩ :=
    hstep.seq ((step_playMethod_rest env g s).seq
      ((step_attempt_rest env g s).seq (step_playBody_rest env g s)))
  exact ⟨res, evs, by rw [ht, h3]⟩

/-- What `playGame` does when the relay answers the `call` with an error whose message
contains `Permit` and neither `limit` nor `random number`. -/
theorem playGame_permit (env : Env) (name : String) (g : Game) (s : App) (cd : CallData)
    (b : Body) (e : RpcError)
    (hg : Game.ofName name = some g) (hG : env.GAMES name = some cd)
    (hf : fetch s.baseUrl rpcUrl (env.http s.sent) = .ok b) (he : b.error = some e)
    (hl : includes (errorMessageOf e) "limit" = false)
    (hr : includes (errorMessageOf e) "random number" = false)
    (hP : includes (errorMessageOf e) "Permit" = true) :
    playGame env name s =
      (.error "",
        { s with
          sessionId := s.sessionId + 1
          sent := s.sent + 1
          gameStatus := s.gameStatus.set g
              { message := "Playing game: [" ++ name ++ "]", waiting := env.toHumanTime 4000 }
          trace := s.trace ++ [.wait 4000 ("Playing game: [" ++ name ++ "]"),
                               .request (callRequest cd s) (.ok b)] }) := by
  simp [playGame, playGameResponse, hG, gameWait, hg, performRpcRequest, send, wait, hf, he, hl, hr,
    hP, callRequest]

/-- C3 (as amended): when the relay rejects the `call` of a configured game with an error
whose message contains `Permit` (and neither `limit` nor `random number`), the play
attempt throws; the loop catches the error, waits 30000 ms, keeps the permit signature
and the capability token, and its next iteration sends the same `call` again with that
same permit and token: no permit request lies between the two calls. -/
theorem play_permit_rejected_retries_with_same_permit (env : Env) (g : Game) (s : App)
    (cd : CallData) (b : Body) (e : RpcError) (m : String)
    (hG : env.GAMES g.name = some cd) (hl0 : s.limitedGames.get g = false)
    (hf : fetch s.baseUrl rpcUrl (env.http s.sent) = .ok b) (he : b.error = some e)
    (hmsg : e.message = some m) (hP : includes m "Permit" = true)
    (hl : includes m "limit" = false) (hr : includes m "random number" = false) :
    (playMethod env g s).1 = .error "" ∧
    ∃ s2, playBody env g s = (.ok (), s2) ∧
      s2.trace = s.trace ++ [.wait 4000 ("Playing game: [" ++ g.name ++ "]"),
                             .request (callRequest cd s) (.ok b), .wait 30000 ""] ∧
      s2.part = s.part ∧ s2.permitSignature = s.permitSignature ∧ s2.address = s.address ∧
      (∀ fuel, play env g (fuel + 2) s = play env g fuel (playBody env g s2).2) ∧
      ∃ res tail, (playBody env g s2).2.trace =
        s2.trace ++ [.wait 4000 ("Playing game: [" ++ g.name ++ "]"),
          .request { url := rpcUrl, verb := "POST",
                     envelope := some { id := s.sessionId + 1,
                                        params := .call cd s.address s.part s.permitSignature } } res]
          ++ tail := by
  have hem : errorMessageOf e = m := errorMessageOf_some hmsg (by decide) hP
  obtain ⟨s1, hs1, ht1, hp1, hq1, ha1, hi1, hl1⟩ : ∃ s1, playGame env g.name s = (.error "", s1) ∧
      s1.trace = s.trace ++ [.wait 4000 ("Playing game: [" ++ g.name ++ "]"),
                             .request (callRequest cd s) (.ok b)] ∧
      s1.part = s.part ∧ s1.permitSignature = s.permitSignature ∧ s1.address = s.address ∧
      s1.sessionId = s.sessionId + 1 ∧ s1.limitedGames = s.limitedGames :=
    ⟨_, playGame_permit env g.name g s cd b e (Game.ofName_name g) hG hf he
      (by rw [hem]; exact hl) (by rw [hem]; exact hr) (by rw [hem]; exact hP),
      rfl, rfl, rfl, rfl, rfl, rfl⟩
  have hmeth : playMethod env g s = (.error "", s1) := by
    cases g
    · exact hs1
    · exact hs1
    · have hs1' : playGame env "mines" s = (.error "", s1) := hs1
      simp only [playMethod, playMines, hs1']
  have hbody : playBody env g s = (.ok (), wait 30000 ""
      { s1 with gameStatus := s1.gameStatus.set g ⟨"", env.toHumanTime 30000⟩ }) := by
    simp only [playBody, attempt, hmeth, gameWait, Game.ofName_name]
  refine ⟨by rw [hmeth], _, hbody, ?_, hp1, hq1, ha1, ?_, ?_⟩
  · simp [wait, ht1]
  · intro fuel
    rw [play_succ_of_not_limited env g (fuel + 1) s hl0, hbody]
    exact play_succ_of_not_limited env g fuel _ (by simp only [wait]; rw [hl1]; exact hl0)
  · obtain ⟨res, tail, h⟩ := playBody_starts env g (wait 30000 ""
      { s1 with gameStatus := s1.gameStatus.set g ⟨"", env.toHumanTime 30000⟩ }) cd hG
    refine ⟨res, tail, ?_⟩
    rw [h]
    simp [callRequest, wait, hp1, hq1, ha1, hi1]

/-- C3 at a concrete input: plinko, a relay that answers the `call` with `Permit expired`. -/
theorem play_permit_rejected_retries_with_same_permit_witness :
    (playMethod permitRejectingEnv .plinko demoApp).1 = .error "" ∧
    ∃ s2, playBody permitRejectingEnv .plinko demoApp = (.ok (), s2) ∧
      s2.trace = demoApp.trace ++ [.wait 4000 ("Playing game: [" ++ Game.plinko.name ++ "]"),
        .request (callRequest { dest := "0xA1", data := "0x01", value := "0n" } demoApp)
          (.ok { status := some 200, error := some { message := some "Permit expired" } }),
        .wait 30000 ""] ∧
      s2.part = demoApp.part ∧ s2.permitSignature = demoApp.permitSignature ∧
      s2.address = demoApp.address ∧
      (∀ fuel, play permitRejectingEnv .plinko (fuel + 2) demoApp
        = play permitRejectingEnv .plinko fuel (playBody permitRejectingEnv .plinko s2).2) ∧
      ∃ res tail, (playBody permitRejectingEnv .plinko s2).2.trace =
        s2.trace ++ [.wait 4000 ("Playing game: [" ++ Game.plinko.name ++ "]"),
          .request { url := rpcUrl, verb := "POST",
                     envelope := some { id := demoApp.sessionId + 1,
                                        params := .call { dest := "0xA1", data := "0x01", value := "0n" }
                                          demoApp.address demoApp.part demoApp.permitSignature } } res]
          ++ tail :=
  play_permit_rejected_retries_with_same_permit permitRejectingEnv .plinko demoApp
    { dest := "0xA1", data := "0x01", value := "0n" }
    { status := some 200, error := some { message := some "Permit expired" } }
    { message := some "Permit expired" } "Permit expired"
    (by decide) (by decide) (by decide) (by decide) (by decide) (by decide) (by decide) (by decide)

/-- C3 fails as stated: against a relay that rejects the first `call` for plinko with
`Permit expired`, the loop returns after sending two relay requests and no other: the
rejected `call` and the same `call` again with the same permit and token, with no
`permitTypedMessage` and no `permit` request in between. -/
theorem play_permit_rejected_counterexample :
    includes "Permit expired" "Permit" = true ∧
    (play permitRejectingEnv .plinko 2 demoApp).1 = .returned ∧
    (play permitRejectingEnv .plinko 2 demoApp).2.trace.filter Event.isRelay =
      [.request { url := rpcUrl, verb := "POST",
                  envelope := some { id := 4, params := .call { dest := "0xA1", data := "0x01", value := "0n" }
                                       (some "0xOwner") (some "0xABC") (some "0xPermitSig") } }
          (.ok { status := some 200, error := some { message := some "Permit expired" } }),
       .request { url := rpcUrl, verb := "POST",
                  envelope := some { id := 5, params := .call { dest := "0xA1", data := "0x01", value := "0n" }
                                       (some "0xOwner") (some "0xABC") (some "0xPermitSig") } }
          (.ok { status := some 200, error := some { message := some "limit reached" } })] := by
  decide

/-! ## Session establishment sends no `call` -/

theorem Quiet.stay (s : App) : Quiet s s := ⟨[], by simp, by simp⟩

theorem Quiet.chain {a b c : App} (h1 : Quiet a b) (h2 : Quiet b c) : Quiet a c := by
  obtain ⟨e1, t1, c1⟩ := h1
  obtain ⟨e2, t2, c2⟩ := h2
  refine ⟨e1 ++ e2, by rw [t2, t1, List.append_assoc], ?_⟩
  intro ev hev
  rcases List.mem_append.mp hev with h | h
  · exact c1 ev h
  · exact c2 ev h

theorem Quiet.of_trace {s s' : App} (ht : s'.trace = s.trace) : Quiet s s' :=
  ⟨[], by simp [ht], by simp⟩

theorem quiet_wait (ms : Nat) (message : String) (s : App) : Quiet s (wait ms message s) :=
  ⟨[.wait ms message], rfl, by simp [Event.callPart]⟩

theorem quiet_send (env : Env) (req : Request) (s : App) (hc : req.callPart = none) :
    Quiet s (send env req s).2 :=
  ⟨[.request req (fetch s.baseUrl req.url (env.http s.sent))], rfl, by simp [Event.callPart, hc]⟩

theorem quiet_getPoints (env : Env) (s : App) : Quiet s (getPoints env s).2 := by
  obtain ⟨evs, -, h2, h3, -⟩ := getPoints_frame env s
  refine ⟨evs, h2, ?_⟩
  intro ev hev
  have := h3 ev hev
  cases ev with
  | wait ms m => rfl
  | request req res =>
    simp only [Event.isRelay] at this
    cases hreq : req.envelope with
    | none => simp [Event.callPart, Request.callPart, hreq]
    | some envelope => simp [hreq] at this

theorem quiet_connect (env : Env) (s : App) : Quiet s (connect env s).2 := by
  unfold connect
  dsimp only
  split
  · exact quiet_wait _ _ _
  · exact (quiet_wait _ _ _).chain ((Quiet.of_trace rfl).chain (quiet_wait _ _ _))

theorem quiet_getBalance (env : Env) (s : App) : Quiet s (getBalance env s).2 := by
  unfold getBalance
  split
  · exact Quiet.stay s
  · dsimp only
    split
    · exact quiet_wait _ _ _
    · exact (quiet_wait _ _ _).chain ((Quiet.of_trace rfl).chain (quiet_wait _ _ _))

theorem quiet_connectToSonic (env : Env) (s : App) : Quiet s (connectToSonic env s).2 := by
  unfold connectToSonic
  dsimp only
  split
  · exact quiet_wait _ _ _
  · split
    · exact quiet_wait _ _ _
    · exact (quiet_wait _ _ _).chain ((Quiet.of_trace rfl).chain (quiet_wait _ _ _))

theorem quiet_getUser (env : Env) (s : App) : Quiet s (getUser env s).2 := by
  unfold getUser
  dsimp only
  have h0 := quiet_wait 4000 "Reading user information" s
  split
  · exact h0
  · rename_i owner hw
    have hs := quiet_send env
      { url := "https://airdrop.soniclabs.com/api/trpc/user.findOrCreate?batch=1&input="
                ++ env.encodeUserQuery owner,
        verb := "GET", envelope := none } (wait 4000 "Reading user information" s)
      (by simp [Request.callPart])
    split
    · rename_i m s1 heq
      simp only [heq] at hs
      exact h0.chain hs
    · rename_i response s1 heq
      simp only [heq] at hs
      split
      · split
        · exact h0.chain hs
        · exact h0.chain (hs.chain ((Quiet.of_trace rfl).chain (quiet_wait _ _ _)))
      · exact h0.chain hs

theorem quiet_tryToUpdateReferrer (env : Env) (s : App) :
    Quiet s (tryToUpdateReferrer env s).2 := by
  unfold tryToUpdateReferrer
  dsimp only
  have h0 := quiet_wait 4000 "Verifying referral code" s
  split
  · exact h0
  · split
    · split
      · exact h0
      · have hs := quiet_send env
          { url := "/api/trpc/user.setInvited?batch=1", verb := "POST", envelope := none }
          (wait 4000 "Verifying referral code" s) (by simp [Request.callPart])
        split
        · rename_i m s1 heq
          simp only [heq] at hs
          exact h0.chain hs
        · rename_i response s1 heq
          simp only [heq] at hs
          split
          · exact h0.chain (hs.chain ((quiet_wait _ _ _).chain (quiet_getUser _ _)))
          · exact h0.chain hs
    · exact h0.chain (quiet_wait _ _ _)

theorem quiet_createSession (env : Env) (s : App) : Quiet s (createSession env s).2 := by
  unfold createSession
  dsimp only
  have h0 := quiet_wait 4000 "Creating session" s
  split
  · exact h0
  · rename_i owner hw
    have hs := quiet_send env
      { url := rpcUrl, verb := "POST",
        envelope := some { id := (wait 4000 "Creating session" s).sessionId,
                           params := .createSession owner } }
      (wait 4000 "Creating session" s) (by simp [Request.callPart])
    split
    · rename_i m s1 heq
      simp only [heq] at hs
      exact h0.chain hs
    · rename_i response s1 heq
      simp only [heq] at hs
      split
      · exact h0.chain (hs.chain ((Quiet.of_trace rfl).chain (quiet_wait _ _ _)))
      · exact h0.chain (hs.chain (Quiet.of_trace rfl))

/-! ## The permit -/

/-- The relay request that `permit()` sends from the instance `s`. -/
theorem permit_eq (env : Env) (s : App) :
    permit env s =
      match fetch s.baseUrl rpcUrl (env.http s.sent) with
      | .error m =>
        (.error m,
          { s with
            sent := s.sent + 1
            trace := s.trace ++ [.wait 4000 "Submitting contract permit",
              .request { url := rpcUrl, verb := "POST",
                         envelope := some { id := s.sessionId,
                                            params := .permit s.address s.permitSignature } }
                (.error m)] })
      | .ok b =>
        match b.error with
        | some e =>
          (.error ("Failed to submit permit: " ++ render e.message),
            { s with
              sent := s.sent + 1
              sessionId := s.sessionId + 1
              trace := s.trace ++ [.wait 4000 "Submitting contract permit",
                .request { url := rpcUrl, verb := "POST",
                           envelope := some { id := s.sessionId,
                                              params := .permit s.address s.permitSignature } }
                  (.ok b)] })
        | none =>
          match b.result with
          | none =>
            (.error "Cannot read properties of undefined",
              { s with
                sent := s.sent + 1
                sessionId := s.sessionId + 1
                trace := s.trace ++ [.wait 4000 "Submitting contract permit",
                  .request { url := rpcUrl, verb := "POST",
                             envelope := some { id := s.sessionId,
                                                params := .permit s.address s.permitSignature } }
                    (.ok b)] })
          | some r =>
            (.ok (),
              { s with
                sent := s.sent + 1
                sessionId := s.sessionId + 1
                part := r.hashKey
                trace := s.trace ++ [.wait 4000 "Submitting contract permit",
                  .request { url := rpcUrl, verb := "POST",
                             envelope := some { id := s.sessionId,
                                                params := .permit s.address s.permitSignature } }
                    (.ok b),
                  .wait 4000 "Permit submitted successfully"] }) := by
  simp only [permit, performRpcRequest, send, wait]
  cases hf : fetch s.baseUrl rpcUrl (env.http s.sent) with
  | error m => simp
  | ok b =>
    dsimp only
    cases he : b.error with
    | some e => simp
    | none =>
      dsimp only
      cases hr : b.result with
      | none => simp
      | some r => simp

/-- The method `permit()` sends no `call`, and when it returns, its trace holds a `permit`
request answered without an error member, whose hash key is the token now stored. -/
theorem permit_spec (env : Env) (s : App) :
    Quiet s (permit env s).2 ∧
      ((permit env s).1 = .ok () →
        ∃ q ∈ (permit env s).2.trace, Event.acceptedPermit (permit env s).2.part q) := by
  rw [permit_eq]
  cases hf : fetch s.baseUrl rpcUrl (env.http s.sent) with
  | error m =>
    exact ⟨⟨[_, _], rfl, by simp [Event.callPart, Request.callPart]⟩, by simp⟩
  | ok b =>
    dsimp only
    cases he : b.error with
    | some e =>
      exact ⟨⟨[_, _], rfl, by simp [Event.callPart, Request.callPart]⟩, by simp⟩
    | none =>
      dsimp only
      cases hr : b.result with
      | none =>
        exact ⟨⟨[_, _], rfl, by simp [Event.callPart, Request.callPart]⟩, by simp⟩
      | some r =>
        refine ⟨⟨[_, _, _], rfl, by simp [Event.callPart, Request.callPart]⟩, fun _ => ?_⟩
        refine ⟨.request { url := rpcUrl, verb := "POST",
                           envelope := some { id := s.sessionId,
                                              params := .permit s.address s.permitSignature } }
                  (.ok b), by simp, ?_⟩
        exact ⟨⟨_, _, _, rfl⟩, he, r, hr, rfl⟩

theorem permitTypedMessage_spec (env : Env) (s : App) :
    Quiet s (permitTypedMessage env s).2 ∧
      ((permitTypedMessage env s).1 = .ok () →
        ∃ q ∈ (permitTypedMessage env s).2.trace,
          Event.acceptedPermit (permitTypedMessage env s).2.part q) := by
  unfold permitTypedMessage
  dsimp only
  have h0 := quiet_wait 4000 "Permitting Sonic Arcade contract" s
  have hs := quiet_send env
    { url := rpcUrl, verb := "POST",
      envelope := some { id := (wait 4000 "Permitting Sonic Arcade contract" s).sessionId,
                         params := .permitTypedMessage
                          (wait 4000 "Permitting Sonic Arcade contract" s).address } }
    (wait 4000 "Permitting Sonic Arcade contract" s) (by simp [Request.callPart])
  split
  · rename_i m s1 heq
    simp only [heq] at hs
    exact ⟨h0.chain hs, by simp⟩
  · rename_i response s1 heq
    simp only [heq] at hs
    split
    · split
      · exact ⟨h0.chain (hs.chain (Quiet.of_trace rfl)), by simp⟩
      · split
        · exact ⟨h0.chain (hs.chain (Quiet.of_trace rfl)), by simp⟩
        · split
          · exact ⟨h0.chain (hs.chain (Quiet.of_trace rfl)), by simp⟩
          · split
            · exact ⟨h0.chain (hs.chain ((Quiet.of_trace rfl).chain ((quiet_wait _ _ _).chain
                (quiet_wait _ _ _)))), by simp⟩
            · rename_i signature hsig
              obtain ⟨hq, hp⟩ := permit_spec env
                { wait 500 "Approving permit message" (wait 500 "Permit successfully created"
                    { s1 with sessionId := s1.sessionId + 1 }) with
                  permitSignature := some signature }
              refine ⟨?_, hp⟩
              exact h0.chain (hs.chain ((Quiet.of_trace rfl).chain ((quiet_wait _ _ _).chain
                ((quiet_wait _ _ _).chain ((Quiet.of_trace rfl).chain hq)))))
    · exact ⟨h0.chain (hs.chain (Quiet.of_trace rfl)), by simp⟩

/-! ## The ordering of `permit` and `call` in a cycle -/

theorem guarded_of_no_call {tr : List Event} (h : ∀ ev ∈ tr, Event.callPart ev = none) :
    CallsGuarded tr := by
  intro pre ev post htr p hp
  have hmem : ev ∈ tr := by rw [htr]; simp
  rw [h ev hmem] at hp
  cases hp

theorem no_call_of_quiet {s s' : App} (h : ∀ ev ∈ s.trace, Event.callPart ev = none)
    (hq : Quiet s s') : ∀ ev ∈ s'.trace, Event.callPart ev = none := by
  obtain ⟨evs, ht, hc⟩ := hq
  intro ev hev
  rw [ht] at hev
  rcases List.mem_append.mp hev with h1 | h1
  · exact h ev h1
  · exact hc ev h1

/-- Appending events to a guarded trace keeps it guarded when each appended `call`
request carries the key of an accepted permit of the trace. -/
theorem guarded_append {tr evs : List Event} (hg : CallsGuarded tr)
    (hc : ∀ ev ∈ evs, ∀ p, Event.callPart ev = some p → ∃ q ∈ tr, Event.acceptedPermit p q) :
    CallsGuarded (tr ++ evs) := by
  intro pre ev post htr p hp
  rcases List.append_eq_append_iff.mp htr with ⟨a, ha, hb⟩ | ⟨c, hc1, hc2⟩
  · have hmem : ev ∈ evs := by rw [hb]; simp
    obtain ⟨q, hq, hacc⟩ := hc ev hmem p hp
    exact ⟨q, by rw [ha]; exact List.mem_append_left _ hq, hacc⟩
  · rcases List.cons_eq_append_iff.mp hc2 with ⟨h1, h2⟩ | ⟨c2, h1, h2⟩
    · have hmem : ev ∈ evs := by rw [h2]; simp
      obtain ⟨q, hq, hacc⟩ := hc ev hmem p hp
      exact ⟨q, by rw [hc1, h1] at hq; simpa using hq, hacc⟩
    · exact hg pre ev c2 (by rw [hc1, h1]) p hp

/-- Game play keeps the trace guarded once an accepted permit for the stored token is in it. -/
theorem guarded_step {s s' : App} (hg : CallsGuarded s.trace)
    (hk : ∃ q ∈ s.trace, Event.acceptedPermit s.part q) (h : Step s s') :
    CallsGuarded s'.trace ∧ ∃ q ∈ s'.trace, Event.acceptedPermit s'.part q := by
  obtain ⟨hp, -, -, evs, ht, hc, -⟩ := h
  refine ⟨by rw [ht]; exact guarded_append hg fun ev hev p hp => hc ev hev p hp ▸ hk, ?_⟩
  obtain ⟨q, hq, hacc⟩ := hk
  exact ⟨q, by rw [ht]; exact List.mem_append_left _ hq, by rw [hp]; exact hacc⟩

theorem andThen_cases (r : Except String Unit × App) (k : App → LoopResult × App)
    (Q : LoopResult × App → Prop) (herr : ∀ m, r.1 = .error m → Q (.raised m, r.2))
    (hok : r.1 = .ok () → Q (k r.2)) : Q (andThen r k) := by
  obtain ⟨x, s⟩ := r
  cases x with
  | error m => exact herr m rfl
  | ok u => exact hok rfl

theorem loopThen_cases (r : LoopResult × App) (k : App → LoopResult × App)
    (Q : LoopResult × App → Prop) (hstop : ∀ x, Q (x, r.2)) (hok : Q (k r.2)) :
    Q (loopThen r k) := by
  obtain ⟨x, s⟩ := r
  cases x with
  | returned => exact hok
  | raised m => exact hstop _
  | running => exact hstop _

theorem runSteps_guarded (env : Env) (fuel : Nat) (s : App)
    (h : ∀ ev ∈ s.trace, Event.callPart ev = none) :
    CallsGuarded (runSteps env fuel s).2.trace := by
  unfold runSteps
  have h1 := no_call_of_quiet h (quiet_connect env s)
  refine andThen_cases _ _ (fun x => CallsGuarded x.2.trace) (fun _ _ => guarded_of_no_call h1) fun _ => ?_
  have h2 := no_call_of_quiet h1 (quiet_getBalance env _)
  refine andThen_cases _ _ (fun x => CallsGuarded x.2.trace) (fun _ _ => guarded_of_no_call h2) fun _ => ?_
  have h3 := no_call_of_quiet h2 (quiet_connectToSonic env _)
  refine andThen_cases _ _ (fun x => CallsGuarded x.2.trace) (fun _ _ => guarded_of_no_call h3) fun _ => ?_
  have h4 := no_call_of_quiet h3 (quiet_getUser env _)
  refine andThen_cases _ _ (fun x => CallsGuarded x.2.trace) (fun _ _ => guarded_of_no_call h4) fun _ => ?_
  have h5 := no_call_of_quiet h4 (quiet_getPoints env _)
  refine andThen_cases _ _ (fun x => CallsGuarded x.2.trace) (fun _ _ => guarded_of_no_call h5) fun _ => ?_
  have h6 := no_call_of_quiet h5 (quiet_tryToUpdateReferrer env _)
  refine andThen_cases _ _ (fun x => CallsGuarded x.2.trace) (fun _ _ => guarded_of_no_call h6) fun _ => ?_
  have h7 := no_call_of_quiet h6 (quiet_createSession env _)
  refine andThen_cases _ _ (fun x => CallsGuarded x.2.trace) (fun _ _ => guarded_of_no_call h7) fun _ => ?_
  obtain ⟨hq, hacc⟩ := permitTypedMessage_spec env
    (createSession env (tryToUpdateReferrer env (getPoints env (getUser env (connectToSonic env
      (getBalance env (connect env s).2).2).2).2).2).2).2
  have h8 := no_call_of_quiet h7 hq
  refine andThen_cases _ _ (fun x => CallsGuarded x.2.trace) (fun _ _ => guarded_of_no_call h8) fun hok => ?_
  have hk := hacc hok
  have i1 := guarded_step (guarded_of_no_call h8) hk (step_play env .plinko fuel _)
  refine loopThen_cases _ _ (fun x => CallsGuarded x.2.trace) (fun _ => i1.1) ?_
  have i2 := guarded_step i1.1 i1.2 (step_play env .mines fuel _)
  refine loopThen_cases _ _ (fun x => CallsGuarded x.2.trace) (fun _ => i2.1) ?_
  have i3 := guarded_step i2.1 i2.2 (step_play env .singlewheel fuel _)
  refine loopThen_cases _ _ (fun x => CallsGuarded x.2.trace) (fun _ => i3.1) ?_
  exact (guarded_step i3.1 i3.2 (step_wait _ _ _)).1

/-- A cycle against a relay that accepts everything does send a `call`, and it carries the
hash key of the permit answer. -/
theorem runCycle_sends_call_with_hash_key :
    (runCycle acceptingEnv 1 "0xKey" (some "0xSmart")).2.trace.filterMap Event.callPart
      = [some "0xABC"] ∧
    ((runCycle acceptingEnv 1 "0xKey" (some "0xSmart")).2.trace.filter Event.isRelay).map
        (Event.isMethod "call") = [false, false, false, true] := by
  decide

/-- C4: in one cycle of `run`, on its own new instance and against any relay, signer and
configuration, whether the cycle ends, fails or is still in a game loop when the fuel is
used up: every `call` request of the trace comes after a `permit` request of the same
trace whose answer had no error member, and the `part` the `call` carries is the hash key
of that answer. -/
theorem run_calls_follow_accepted_permit (env : Env) (fuel : Nat) (account : String)
    (smartAddress : Option String) :
    CallsGuarded (runCycle env fuel account smartAddress).2.trace := by
  have h := runSteps_guarded env fuel (App.new account smartAddress) (by simp [App.new])
  unfold runCycle
  split
  · rename_i s heq
    simp only [heq] at h
    exact h
  · rename_i m s heq
    simp only [heq] at h
    exact guarded_append h (by simp [Event.callPart])
  · rename_i s heq
    simp only [heq] at h
    exact h

/-! ## The limit flags across a failed attempt -/

theorem limited_gameWait (env : Env) (game : String) (ms : Nat) (message : String) (s : App) :
    (gameWait env game ms message s).2.limitedGames = s.limitedGames := by
  unfold gameWait
  split <;> rfl

theorem limited_playGameResponse_error (env : Env) (name : String) (response : Body) (s : App)
    (m : String) (h : (playGameResponse env name response s).1 = .error m) :
    (playGameResponse env name response s).2.limitedGames = s.limitedGames := by
  unfold playGameResponse at h ⊢
  cases he : response.error with
  | none =>
    simp only [he] at h ⊢
    exact limited_gameWait _ _ _ _ _
  | some error =>
    simp only [he] at h ⊢
    by_cases hlim : includes (errorMessageOf error) "limit" = true
    · rw [if_pos hlim] at h ⊢
      cases hg : Game.ofName name with
      | none =>
        simp only [hg] at h ⊢
        exact limited_gameWait _ _ _ _ _
      | some g => simp [hg, gameWait] at h
    · rw [if_neg hlim] at h ⊢
      by_cases hrn : includes (errorMessageOf error) "random number" = true
      · rw [if_pos hrn] at h ⊢
        have hw := limited_gameWait env name 20000 (errorMessageOf error) s
        split
        · rename_i m1 s1 heq
          simp only [heq] at hw
          exact hw
        · rename_i s1 heq
          simp only [heq] at hw
          obtain ⟨-, -, -, -, h3⟩ := reIterate_trace env name s1
          rw [h3, hw]
      · rw [if_neg hrn] at h ⊢
        split
        · rfl
        · split <;> rfl

theorem limited_playGame_error (env : Env) (name : String) (s : App) (m : String)
    (h : (playGame env name s).1 = .error m) :
    (playGame env name s).2.limitedGames = s.limitedGames := by
  unfold playGame at h ⊢
  cases hG : env.GAMES name with
  | none => rfl
  | some callData =>
    simp only [hG] at h ⊢
    have hw := limited_gameWait env name 4000 ("Playing game: [" ++ name ++ "]") s
    cases hgw : gameWait env name 4000 ("Playing game: [" ++ name ++ "]") s with
    | mk r s1 =>
      simp only [hgw] at hw
      cases r with
      | error m1 => exact hw
      | ok u =>
        simp only [hgw, performRpcRequest, send] at h ⊢
        cases hf : fetch s1.baseUrl rpcUrl (env.http s1.sent) with
        | error m2 => exact hw
        | ok response =>
          simp only [hf] at h ⊢
          rw [limited_playGameResponse_error env name response _ m h]
          exact hw

theorem limited_claimResponse (env : Env) (response : Body) (s : App) :
    (claimResponse env response s).2.limitedGames = s.limitedGames := by
  unfold claimResponse
  dsimp only
  split
  · rename_i m s1 heq
    split at heq
    · rename_i error herr
      have hw := limited_gameWait env "mines" 4000
        ("Failed to claim mine game: " ++ render error.message) s
      simp only [heq] at hw
      exact hw
    · simp at heq
  · rename_i s1 heq
    have h1 : s1.limitedGames = s.limitedGames := by
      split at heq
      · rename_i error herr
        have hw := limited_gameWait env "mines" 4000
          ("Failed to claim mine game: " ++ render error.message) s
        simp only [heq] at hw
        exact hw
      · simp only [Prod.mk.injEq, true_and] at heq
        subst heq
        rfl
    split
    · rw [limited_gameWait, h1]
    · rw [limited_gameWait, h1]

theorem playMines_error_not_limited (env : Env) (s : App) (m : String)
    (h0 : s.limitedGames.get .mines = false) (h : (playMines env s).1 = .error m) :
    (playMines env s).2.limitedGames.get .mines = false := by
  unfold playMines at h ⊢
  split
  · rename_i m1 s1 heq
    have := limited_playGame_error env "mines" s m1 (by rw [heq])
    simp only [heq] at this
    simp only [this, h0]
  · rename_i s1 heq
    simp only [heq] at h
    split
    · rename_i hlim
      simp [hlim] at h
    · rename_i hlim
      have hl1 : s1.limitedGames.get .mines = false := by simpa using hlim
      have hw1 := limited_gameWait env "mines" 4000 "Placed" s1
      split
      · rename_i m2 s2 heq2
        simp only [heq2] at hw1
        simp only [hw1, hl1]
      · rename_i s2 heq2
        simp only [heq2] at hw1
        have hw2 := limited_gameWait env "mines" 4000 "Claiming mine game reward" s2
        split
        · rename_i m3 s3 heq3
          simp only [heq3] at hw2
          simp only [hw2, hw1, hl1]
        · rename_i s3 heq3
          simp only [heq3] at hw2
          unfold send
          dsimp only
          split
          · rename_i m4 s4 heq4
            simp only [Prod.mk.injEq] at heq4
            rw [← heq4.2]
            simp only [hw2, hw1, hl1]
          · rename_i response s4 heq4
            simp only [Prod.mk.injEq] at heq4
            rw [limited_claimResponse, ← heq4.2]
            simp only [hw2, hw1, hl1]

theorem attempt_error_not_limited (env : Env) (g : Game) (s : App) (m : String) (s1 : App)
    (h0 : s.limitedGames.get g = false) (h : attempt env g s = (.error m, s1)) :
    s1.limitedGames.get g = false := by
  unfold attempt at h
  split at h
  · rename_i m1 s2 heq
    simp only [Prod.mk.injEq] at h
    rw [← h.2]
    cases g
    · have := limited_playGame_error env "plinko" s m1 (by
        show (playMethod env .plinko s).1 = _
        rw [heq])
      have h2 : (playGame env "plinko" s).2 = s2 := by
        show (playMethod env .plinko s).2 = _
        rw [heq]
      rw [h2] at this
      rw [this, h0]
    · have := limited_playGame_error env "singlewheel" s m1 (by
        show (playMethod env .singlewheel s).1 = _
        rw [heq])
      have h2 : (playGame env "singlewheel" s).2 = s2 := by
        show (playMethod env .singlewheel s).2 = _
        rw [heq]
      rw [h2] at this
      rw [this, h0]
    · have := playMines_error_not_limited env s m1 h0 (by
        show (playMethod env .mines s).1 = _
        rw [heq])
      have h2 : (playMines env s).2 = s2 := by
        show (playMethod env .mines s).2 = _
        rw [heq]
      rw [h2] at this
      exact this
  · rename_i s2 heq
    obtain ⟨evs, h1, -⟩ := getPoints_frame env s2
    rw [h] at h1
    cases h1

/-! ## The loop catches what an attempt throws -/

theorem play_not_raised (env : Env) (g : Game) (fuel : Nat) (s : App) (m : String) :
    (play env g fuel s).1 ≠ .raised m := by
  induction fuel generalizing s with
  | zero =>
    unfold play
    split <;> simp
  | succ n ih =>
    cases h : s.limitedGames.get g with
    | true => rw [play_of_limited env g _ s h]; simp
    | false =>
      rw [play_succ_of_not_limited env g n s h]
      exact ih _

theorem play_returned_limited (env : Env) (g : Game) (fuel : Nat) (s : App)
    (hr : (play env g fuel s).1 = .returned) : (play env g fuel s).2.limitedGames.get g = true := by
  induction fuel generalizing s with
  | zero =>
    unfold play at hr ⊢
    split
    · assumption
    · rename_i h
      rw [if_neg h] at hr
      cases hr
  | succ n ih =>
    cases h : s.limitedGames.get g with
    | true => rw [play_of_limited env g _ s h]; exact h
    | false =>
      rw [play_succ_of_not_limited env g n s h] at hr ⊢
      exact ih _ hr

/-- C8: for each of the three games, any instance and any environment, `play(app, g)`
never throws and returns only with the flag of `g` set; and when an attempt (the play
method or the points refresh after it) throws an error with message `m` while the flag is
unset, the body of the loop returns after a `gameWait` of 30000 ms on `g` with message
`m`, and the loop goes on with a further attempt on the same game. -/
theorem play_catches_errors_and_retries (env : Env) (g : Game) (fuel : Nat) (s : App) :
    (∀ m, (play env g fuel s).1 ≠ .raised m) ∧
    ((play env g fuel s).1 = .returned → (play env g fuel s).2.limitedGames.get g = true) ∧
    (∀ m s1, s.limitedGames.get g = false → attempt env g s = (.error m, s1) →
      ∃ s2, playBody env g s = (.ok (), s2) ∧ s2.trace = s1.trace ++ [.wait 30000 m] ∧
        s2.gameStatus.get g = { message := m, waiting := env.toHumanTime 30000 } ∧
        play env g (fuel + 2) s = play env g fuel (playBody env g s2).2) := by
  refine ⟨play_not_raised env g fuel s, play_returned_limited env g fuel s, ?_⟩
  intro m s1 h0 ha
  have h1 := attempt_error_not_limited env g s m s1 h0 ha
  have hbody : playBody env g s = (.ok (), wait 30000 m
      { s1 with gameStatus := s1.gameStatus.set g ⟨m, env.toHumanTime 30000⟩ }) := by
    simp only [playBody, ha, gameWait, Game.ofName_name]
  refine ⟨_, hbody, rfl, PerGame.get_set_self _ _ _, ?_⟩
  rw [play_succ_of_not_limited env g (fuel + 1) s h0, hbody]
  exact play_succ_of_not_limited env g fuel _ h1

/-- C8 at a concrete input: plinko, a relay that rejects the first `call` with
`Permit expired`, so that the first attempt throws. -/
theorem play_catches_errors_and_retries_witness :
    (play permitRejectingEnv .plinko 2 demoApp).1 = .returned ∧
    (play permitRejectingEnv .plinko 2 demoApp).2.limitedGames.get .plinko = true ∧
    ∃ s2, playBody permitRejectingEnv .plinko demoApp = (.ok (), s2) ∧
      s2.trace = (attempt permitRejectingEnv .plinko demoApp).2.trace ++ [.wait 30000 ""] ∧
      s2.gameStatus.get .plinko = { message := "", waiting := "30000ms" } ∧
      play permitRejectingEnv .plinko (0 + 2) demoApp
        = play permitRejectingEnv .plinko 0 (playBody permitRejectingEnv .plinko s2).2 :=
  ⟨by decide,
   (play_catches_errors_and_retries permitRejectingEnv .plinko 2 demoApp).2.1 (by decide),
   (play_catches_errors_and_retries permitRejectingEnv .plinko 0 demoApp).2.2 ""
     (attempt permitRejectingEnv .plinko demoApp).2 (by decide) (by decide)⟩

/-! ## Permit submission -/

theorem startsWithChars_self (l r : List Char) : startsWithChars l (l ++ r) = true := by
  induction l with
  | nil => rfl
  | cons c cs ih => simp [startsWithChars, ih]

theorem includesChars_append (a b : List Char) : includesChars (a ++ b) b = true := by
  induction a with
  | nil =>
    cases b with
    | nil => rfl
    | cons c cs =>
      have := startsWithChars_self (c :: cs) []
      simp only [List.append_nil] at this
      simp [includesChars, this]
  | cons x xs ih => simp [includesChars, ih]

theorem includes_append (a b : String) : includes (a ++ b) b = true := by
  simp [includes, String.data_append, includesChars_append]

/-- C5: whatever `App.fetch` returns for the `permit` request, if the answer has no error
member (and has the result member the code reads), `permit()` returns and the stored
token `part` is exactly `result.hashKey`; if it has an error member, `permit()` throws an
error whose message is `Failed to submit permit: ` followed by the server message, which
it therefore contains, and `part` is what it was. -/
theorem permit_stores_hash_key_or_raises (env : Env) (s : App) (b : Body)
    (hf : fetch s.baseUrl rpcUrl (env.http s.sent) = .ok b) :
    (∀ r, b.error = none → b.result = some r →
      (permit env s).1 = .ok () ∧ (permit env s).2.part = r.hashKey) ∧
    (∀ e, b.error = some e →
      (permit env s).1 = .error ("Failed to submit permit: " ++ render e.message) ∧
      includes ("Failed to submit permit: " ++ render e.message) (render e.message) = true ∧
      (permit env s).2.part = s.part) := by
  rw [permit_eq, hf]
  refine ⟨?_, ?_⟩
  · intro r he hr
    simp [he, hr]
  · intro e he
    simp [he, includes_append]

/-- C5 at concrete inputs: an answer with hash key `0xABC`, and an answer with the error
message `bad signature`. -/
theorem permit_stores_hash_key_or_raises_witness :
    ((permit (demoEnv fun _ => jsonAnswer { result := some { hashKey := some "0xABC" } })
        (App.new "0xKey" none)).1 = .ok () ∧
      (permit (demoEnv fun _ => jsonAnswer { result := some { hashKey := some "0xABC" } })
        (App.new "0xKey" none)).2.part = some "0xABC") ∧
    ((permit (demoEnv fun _ => errorAnswer "bad signature") demoApp).1
        = .error ("Failed to submit permit: " ++ render (some "bad signature")) ∧
      includes ("Failed to submit permit: " ++ render (some "bad signature"))
        (render (some "bad signature")) = true ∧
      (permit (demoEnv fun _ => errorAnswer "bad signature") demoApp).2.part = demoApp.part) :=
  ⟨(permit_stores_hash_key_or_raises
      (demoEnv fun _ => jsonAnswer { result := some { hashKey := some "0xABC" } })
      (App.new "0xKey" none) { status := some 200, result := some { hashKey := some "0xABC" } }
      (by decide)).1 { hashKey := some "0xABC" } rfl rfl,
   (permit_stores_hash_key_or_raises (demoEnv fun _ => errorAnswer "bad signature") demoApp
      { status := some 200, error := some { message := some "bad signature" } }
      (by decide)).2 { message := some "bad signature" } rfl⟩

/-! ## The transport wrapper -/

/-- Whatever `App.fetch` returns has status 200. -/
theorem fetch_ok_status {baseUrl url : String} {o : NetOutcome} {b : Body}
    (h : fetch baseUrl url o = .ok b) : b.status = some 200 := by
  unfold fetch at h
  dsimp only at h
  split at h
  · rename_i b1 hb
    cases h
    cases o with
    | failed m => simp at hb
    | response r =>
      simp only [fetchBody] at hb
      split at hb
      · simp at hb
      · split at hb
        · split at hb
          · cases hb; rfl
          · simp at hb
        · simp at hb
  · split at h
    · cases h; rfl
    · simp at h

/-- C9 (as amended): for a response whose body `App.fetch` can read, when the status is in
the success range and the body is an object, `fetch` returns that body with its status
member set to 200; when the status is outside the range, `fetch` throws an error whose
message is the status, ` - ` and the status text, unless the requested URL contains
`something` and that message contains `401`, in which case it returns `{ status: 200 }`. -/
theorem fetch_normalises_or_raises (baseUrl url : String) (r : HttpResponse) :
    (∀ b, r.ok = true → readBody r = .ok (.object b) →
      fetch baseUrl url (.response r) = .ok { b with status := some 200 }) ∧
    (∀ v, r.ok = false → readBody r = .ok v →
      ¬(includes (requestUrl baseUrl url) "something" = true ∧ includes (statusLine r) "401" = true) →
      fetch baseUrl url (.response r) = .error (toString r.status ++ " - " ++ r.statusText)) ∧
    (∀ v, r.ok = false → readBody r = .ok v →
      includes (requestUrl baseUrl url) "something" = true → includes (statusLine r) "401" = true →
      fetch baseUrl url (.response r) = .ok { status := some 200 }) := by
  refine ⟨?_, ?_, ?_⟩
  · intro b hok hb
    simp [fetch, fetchBody, hb, hok]
  · intro v hok hb hg
    simp only [fetch, fetchBody, hb, hok]
    simp only [Bool.false_eq_true, if_false]
    rw [if_neg (by simpa using hg)]
    rfl
  · intro v hok hb h1 h2
    simp [fetch, fetchBody, hb, hok, h1, h2]

/-- C9 at concrete inputs: a 201 response with a JSON object, a 500 response, and a 401
response from a URL that contains `something`. -/
theorem fetch_normalises_or_raises_witness :
    fetch "https://arcade.soniclabs.com" rpcUrl (.response created)
      = .ok { result := some {}, status := some 200 } ∧
    fetch "https://arcade.soniclabs.com" rpcUrl (.response serverError)
      = .error (toString 500 ++ " - " ++ "Internal Server Error") ∧
    fetch "https://arcade.soniclabs.com" "/something" (.response unauthorized)
      = .ok { status := some 200 } :=
  ⟨(fetch_normalises_or_raises "https://arcade.soniclabs.com" rpcUrl created).1
      { result := some {} } (by decide) (by decide),
   (fetch_normalises_or_raises "https://arcade.soniclabs.com" rpcUrl serverError).2.1
      (.object { status := some 500, message := some "oops" }) (by decide) (by decide) (by decide),
   (fetch_normalises_or_raises "https://arcade.soniclabs.com" "/something" unauthorized).2.2
      (.object { status := some 401, message := some "denied" }) (by decide) (by decide)
      (by decide) (by decide)⟩

/-- C9 fails as stated: a 401 response from a URL that contains `something` makes `fetch`
return `{ status: 200 }` instead of throwing, and a 204 response announced as JSON with an
empty body makes it throw the parser error instead of returning a body. -/
theorem fetch_counterexample :
    (unauthorized.ok = false ∧
      fetch "https://arcade.soniclabs.com" "https://x.io/something" (.response unauthorized)
        = .ok { status := some 200 }) ∧
    (noContent.ok = true ∧
      fetch "https://arcade.soniclabs.com" rpcUrl (.response noContent)
        = .error "Unexpected end of JSON input") := by
  decide

/-! ## Session creation -/

theorem requestUrl_rpcUrl (baseUrl : String) : requestUrl baseUrl rpcUrl = rpcUrl := by
  have : startsWith rpcUrl "http" = true := by decide
  simp [requestUrl, this]

/-- On the relay endpoint `App.fetch` throws for a platform failure and for every response
that is not ok. -/
theorem fetch_rpcUrl_fails (baseUrl : String) (o : NetOutcome)
    (h : ∀ r, o = .response r → r.ok = false) :
    ∃ m, fetch baseUrl rpcUrl o = .error m := by
  have hno : includes rpcUrl "something" = false := by decide
  unfold fetch
  rw [requestUrl_rpcUrl]
  simp only [hno, Bool.false_and, Bool.false_eq_true, if_false]
  cases o with
  | failed m => exact ⟨m, rfl⟩
  | response r =>
    have hok := h r rfl
    simp only [fetchBody, hok, Bool.false_eq_true, if_false]
    cases readBody r with
    | error m => exact ⟨m, rfl⟩
    | ok v => exact ⟨statusLine r, rfl⟩

/-- C7 (as amended): when the platform fails or answers the `createSession` request with a
status outside the success range 200 to 299, `createSession` throws and the permit
signature, the token `part` and the counter `sessionId` are what they were; when it
answers with a status in the range and a JSON object, whatever the status (201 as well as
200), `createSession` of a connected instance returns and the counter has advanced by one. -/
theorem createSession_fails_without_advancing (env : Env) (s : App) :
    ((∀ r, env.http s.sent = .response r → r.ok = false) →
      (∃ m, (createSession env s).1 = .error m) ∧
      (createSession env s).2.permitSignature = s.permitSignature ∧
      (createSession env s).2.part = s.part ∧
      (createSession env s).2.sessionId = s.sessionId) ∧
    (∀ r b owner, env.http s.sent = .response r → r.ok = true → readBody r = .ok (.object b) →
      s.wallet = some owner →
      (createSession env s).1 = .ok () ∧
      (createSession env s).2.permitSignature = s.permitSignature ∧
      (createSession env s).2.part = s.part ∧
      (createSession env s).2.sessionId = s.sessionId + 1) := by
  refine ⟨?_, ?_⟩
  · intro h
    obtain ⟨m, hm⟩ := fetch_rpcUrl_fails s.baseUrl (env.http s.sent) h
    simp only [createSession, send, wait, hm]
    cases s.wallet with
    | none => exact ⟨⟨_, rfl⟩, rfl, rfl, rfl⟩
    | some owner => exact ⟨⟨_, rfl⟩, rfl, rfl, rfl⟩
  · intro r b owner hr hok hb hw
    have hf : fetch s.baseUrl rpcUrl (env.http s.sent) = .ok { b with status := some 200 } := by
      rw [hr]
      simp [fetch, fetchBody, hb, hok]
    simp [createSession, send, wait, hf, hw]

/-- C7 at concrete inputs: a 500 response, and a 201 response. -/
theorem createSession_fails_without_advancing_witness :
    ((∃ m, (createSession (demoEnv fun _ => .response serverError) demoApp).1 = .error m) ∧
      (createSession (demoEnv fun _ => .response serverError) demoApp).2.permitSignature
        = demoApp.permitSignature ∧
      (createSession (demoEnv fun _ => .response serverError) demoApp).2.part = demoApp.part ∧
      (createSession (demoEnv fun _ => .response serverError) demoApp).2.sessionId
        = demoApp.sessionId) ∧
    ((createSession (demoEnv fun _ => .response created) demoApp).1 = .ok () ∧
      (createSession (demoEnv fun _ => .response created) demoApp).2.permitSignature
        = demoApp.permitSignature ∧
      (createSession (demoEnv fun _ => .response created) demoApp).2.part = demoApp.part ∧
      (createSession (demoEnv fun _ => .response created) demoApp).2.sessionId
        = demoApp.sessionId + 1) :=
  ⟨(createSession_fails_without_advancing (demoEnv fun _ => .response serverError) demoApp).1
      (by intro r h; cases h; decide),
   (createSession_fails_without_advancing (demoEnv fun _ => .response created) demoApp).2
      created { result := some {} } "0xOwner" rfl (by decide) (by decide) rfl⟩

/-- C7 fails as stated: the status 201 is not 200, yet `createSession` returns without
throwing and the counter `sessionId` has advanced. -/
theorem createSession_counterexample :
    created.status ≠ 200 ∧
    (createSession (demoEnv fun _ => .response created) demoApp).1 = .ok () ∧
    (createSession (demoEnv fun _ => .response created) demoApp).2.sessionId
      = demoApp.sessionId + 1 := by
  decide

/-! ## The points refresh -/

/-- C10: `getPoints` always returns. Without a smart address it sends nothing and keeps
both points fields; with one, it keeps them when `App.fetch` throws, and sets them to the
`today` and `totalPoints` members of the body when `App.fetch` returns one. -/
theorem getPoints_never_raises (env : Env) (s : App) :
    (getPoints env s).1 = .ok () ∧
    (truthy s.smartAddress = false →
      (getPoints env s).2.sent = s.sent ∧
      (getPoints env s).2.trace = s.trace ++ [.wait 500 "Smart address is not configured, skipping"] ∧
      (getPoints env s).2.today_points = s.today_points ∧
      (getPoints env s).2.total_points = s.total_points) ∧
    (∀ m, truthy s.smartAddress = true →
      fetch s.baseUrl (pointsRequest s).url (env.http s.sent) = .error m →
      (getPoints env s).2.today_points = s.today_points ∧
      (getPoints env s).2.total_points = s.total_points) ∧
    (∀ b, truthy s.smartAddress = true →
      fetch s.baseUrl (pointsRequest s).url (env.http s.sent) = .ok b →
      (getPoints env s).2.today_points = b.today ∧
      (getPoints env s).2.total_points = b.totalPoints) := by
  refine ⟨(getPoints_frame env s).choose_spec.1, ?_, ?_, ?_⟩
  · intro h
    simp [getPoints, h, wait]
  · intro m h hf
    have hf' : fetch s.baseUrl
        ("https://arcade.gateway.soniclabs.com/game/points-by-player?wallet=" ++ render s.smartAddress)
        (env.http s.sent) = .error m := hf
    simp [getPoints, h, wait, send, pointsRequest, hf']
  · intro b h hf
    have hst := fetch_ok_status hf
    have hf' : fetch s.baseUrl
        ("https://arcade.gateway.soniclabs.com/game/points-by-player?wallet=" ++ render s.smartAddress)
        (env.http s.sent) = .ok b := hf
    simp [getPoints, h, wait, send, pointsRequest, hf', hst]

/-- C10 at concrete inputs: no smart address; a smart address and a 500 response; a smart
address and an answer with 7 points today and 40 in total. -/
theorem getPoints_never_raises_witness :
    ((getPoints (demoEnv fun _ => .failed "offline") (App.new "0xKey" none)).2.sent = 0 ∧
      (getPoints (demoEnv fun _ => .failed "offline") (App.new "0xKey" none)).2.trace
        = [] ++ [.wait 500 "Smart address is not configured, skipping"] ∧
      (getPoints (demoEnv fun _ => .failed "offline") (App.new "0xKey" none)).2.today_points = none ∧
      (getPoints (demoEnv fun _ => .failed "offline") (App.new "0xKey" none)).2.total_points = none) ∧
    ((getPoints (demoEnv fun _ => .response serverError) demoApp).2.today_points
        = demoApp.today_points ∧
      (getPoints (demoEnv fun _ => .response serverError) demoApp).2.total_points
        = demoApp.total_points) ∧
    ((getPoints (demoEnv fun _ => jsonAnswer { today := some 7, totalPoints := some 40 })
        demoApp).2.today_points = some 7 ∧
      (getPoints (demoEnv fun _ => jsonAnswer { today := some 7, totalPoints := some 40 })
        demoApp).2.total_points = some 40) :=
  ⟨(getPoints_never_raises (demoEnv fun _ => .failed "offline") (App.new "0xKey" none)).2.1
      (by decide),
   (getPoints_never_raises (demoEnv fun _ => .response serverError) demoApp).2.2.1
      "500 - Internal Server Error" (by decide) (by decide),
   (getPoints_never_raises (demoEnv fun _ => jsonAnswer { today := some 7, totalPoints := some 40 })
      demoApp).2.2.2 { status := some 200, today := some 7, totalPoints := some 40 }
      (by decide) (by decide)⟩

/-! ## Request identifiers -/

/-- C6, the code at two inputs. Two iterations of the mines loop against a relay that
accepts everything, from an instance whose counter is 4: the relay requests carry the
ids 4, 5, 5, 6, since the claim call does not advance the counter. One call of `register`
from the same instance: the request carries the id 7 while the counter is 4. -/
theorem relay_ids_not_increasing :
    (play (demoEnv fun _ => jsonAnswer {}) .mines 2 demoApp).2.trace.filterMap Event.relayId
      = [4, 5, 5, 6] ∧
    (play (demoEnv fun _ => jsonAnswer {}) .mines 2 demoApp).2.sessionId = 6 ∧
    demoApp.sessionId = 4 ∧
    (register (demoEnv fun _ => jsonAnswer {}) 1 demoApp).map
        (fun s => (s.trace.filterMap Event.relayId, s.sessionId)) = some ([7], 5) := by
  decide

/-! ## The limit flag of a game -/

/-- The test of `playGame` on `response.error?.message || "Unknown"` is a test on the
message of the error member. -/
theorem includes_errorMessageOf_limit (e : RpcError) :
    includes (errorMessageOf e) "limit" =
      match e.message with
      | some m => includes m "limit"
      | none => false := by
  unfold errorMessageOf
  cases hm : e.message with
  | none => decide
  | some m =>
    by_cases h0 : m = ""
    · subst h0
      decide
    · simp only [h0, if_false]

theorem hasLimitError_of_error {b : Body} {e : RpcError} (he : b.error = some e) :
    hasLimitError b = includes (errorMessageOf e) "limit" := by
  rw [includes_errorMessageOf_limit]
  simp only [hasLimitError, he]

/-- The limit flags after the classification of a relay answer: the flag of the game is
set when the answer has an error whose message contains `limit`, and nothing else changes. -/
theorem limited_playGameResponse (env : Env) (name : String) (g : Game) (response : Body)
    (s : App) (hg : Game.ofName name = some g) :
    (playGameResponse env name response s).2.limitedGames =
      if hasLimitError response then s.limitedGames.set g true else s.limitedGames := by
  unfold playGameResponse
  cases he : response.error with
  | none =>
    have hno : hasLimitError response = false := by simp [hasLimitError, he]
    simp only [hno, Bool.false_eq_true, if_false]
    exact limited_gameWait _ _ _ _ _
  | some error =>
    have hl := hasLimitError_of_error he
    dsimp only
    by_cases hlim : includes (errorMessageOf error) "limit" = true
    · rw [if_pos hlim, hl, if_pos hlim]
      simp only [hg]
      exact limited_gameWait _ _ _ _ _
    · rw [if_neg hlim, hl, if_neg hlim]
      by_cases hrn : includes (errorMessageOf error) "random number" = true
      · rw [if_pos hrn]
        have hw := limited_gameWait env name 20000 (errorMessageOf error) s
        split
        · rename_i m1 s1 heq
          simp only [heq] at hw
          exact hw
        · rename_i s1 heq
          simp only [heq] at hw
          obtain ⟨-, -, -, -, h3⟩ := reIterate_trace env name s1
          rw [h3, hw]
      · rw [if_neg hrn]
        split
        · rfl
        · split <;> rfl

/-- The limit flags after `playGame` on a configured game with a status record, when
`App.fetch` returns the answer `b` for the `call`. -/
theorem limited_playGame_answer (env : Env) (name : String) (g : Game) (s : App) (cd : CallData)
    (b : Body) (hg : Game.ofName name = some g) (hG : env.GAMES name = some cd)
    (hf : fetch s.baseUrl rpcUrl (env.http s.sent) = .ok b) :
    (playGame env name s).2.limitedGames =
      if hasLimitError b then s.limitedGames.set g true else s.limitedGames := by
  simp only [playGame, hG, gameWait, hg, performRpcRequest, send, wait, hf]
  rw [limited_playGameResponse env name g b _ hg]

/-- What `playGame` does when the relay answers the `call` without an error member. -/
theorem playGame_success (env : Env) (name : String) (g : Game) (s : App) (cd : CallData)
    (b : Body) (hg : Game.ofName name = some g) (hG : env.GAMES name = some cd)
    (hf : fetch s.baseUrl rpcUrl (env.http s.sent) = .ok b) (he : b.error = none) :
    playGame env name s =
      (.ok (),
        { s with
          sessionId := s.sessionId + 1
          sent := s.sent + 1
          gameStatus := (s.gameStatus.set g
              { message := "Playing game: [" ++ name ++ "]", waiting := env.toHumanTime 4000 }).set g
              { message := "Successfully played game: [" ++ name ++ "]",
                waiting := env.toHumanTime 4000 }
          trace := s.trace ++ [.wait 4000 ("Playing game: [" ++ name ++ "]"),
                               .request (callRequest cd s) (.ok b),
                               .wait 4000 ("Successfully played game: [" ++ name ++ "]")] }) := by
  simp [playGame, playGameResponse, hG, gameWait, hg, performRpcRequest, send, wait, hf, he,
    callRequest]

/-- C11: for every game name, instance and environment, after `playGame(name)`, whether
it returned or threw: when the `call` was sent and `App.fetch` returned the answer `b`,
the limit flag of the game is its previous value or-ed with "`b` has an error whose
message contains `limit`", and the flags of the other games are what they were; an
answer without an error member makes `playGame` return after that one `call` with the
status message `Successfully played game: [name]` and every flag unchanged. When no
answer came (the name is not configured, has no status record, or `App.fetch` threw),
every flag is what it was. -/
theorem playGame_limited_flag_sticky (env : Env) (name : String) (s : App) :
    (∀ g cd b, Game.ofName name = some g → env.GAMES name = some cd →
      fetch s.baseUrl rpcUrl (env.http s.sent) = .ok b →
      (playGame env name s).2.limitedGames.get g = (s.limitedGames.get g || hasLimitError b) ∧
      (∀ h, h ≠ g → (playGame env name s).2.limitedGames.get h = s.limitedGames.get h) ∧
      (b.error = none →
        (playGame env name s).1 = .ok () ∧
        (playGame env name s).2.gameStatus.get g =
          { message := "Successfully played game: [" ++ name ++ "]",
            waiting := env.toHumanTime 4000 } ∧
        (playGame env name s).2.trace =
          s.trace ++ [.wait 4000 ("Playing game: [" ++ name ++ "]"),
                      .request (callRequest cd s) (.ok b),
                      .wait 4000 ("Successfully played game: [" ++ name ++ "]")] ∧
        (playGame env name s).2.limitedGames = s.limitedGames)) ∧
    ((Game.ofName name = none ∨ env.GAMES name = none ∨
        ∃ m, fetch s.baseUrl rpcUrl (env.http s.sent) = .error m) →
      (playGame env name s).2.limitedGames = s.limitedGames) := by
  refine ⟨?_, ?_⟩
  · intro g cd b hg hG hf
    have hl := limited_playGame_answer env name g s cd b hg hG hf
    refine ⟨?_, ?_, ?_⟩
    · rw [hl]
      cases hb : hasLimitError b with
      | true => simp [PerGame.get_set_self]
      | false => simp
    · intro h hne
      rw [hl]
      cases hb : hasLimitError b with
      | true =>
        simp only [if_true]
        exact PerGame.get_set_other _ _ _ _ hne
      | false => simp
    · intro he
      have hs := playGame_success env name g s cd b hg hG hf he
      rw [hs]
      exact ⟨rfl, PerGame.get_set_self _ _ _, rfl, rfl⟩
  · intro h
    rcases h with hg | hG | ⟨m, hf⟩
    · cases hG : env.GAMES name with
      | none => simp [playGame, hG]
      | some cd => simp [playGame, hG, gameWait, hg]
    · simp [playGame, hG]
    · cases hG : env.GAMES name with
      | none => simp [playGame, hG]
      | some cd =>
        cases hg : Game.ofName name with
        | none => simp [playGame, hG, gameWait, hg]
        | some g => simp [playGame, hG, gameWait, hg, performRpcRequest, send, wait, hf]

/-- C11 at concrete inputs: plinko answered without an error member; mines answered with
`limit reached`; a name that is not configured. -/
theorem playGame_limited_flag_sticky_witness :
    ((playGame (demoEnv fun _ => jsonAnswer {}) "plinko" demoApp).1 = .ok () ∧
      (playGame (demoEnv fun _ => jsonAnswer {}) "plinko" demoApp).2.gameStatus.get .plinko =
        { message := "Successfully played game: [" ++ "plinko" ++ "]", waiting := "4000ms" } ∧
      (playGame (demoEnv fun _ => jsonAnswer {}) "plinko" demoApp).2.trace =
        demoApp.trace ++ [.wait 4000 ("Playing game: [" ++ "plinko" ++ "]"),
          .request (callRequest { dest := "0xA1", data := "0x01", value := "0n" } demoApp)
            (.ok { status := some 200 }),
          .wait 4000 ("Successfully played game: [" ++ "plinko" ++ "]")] ∧
      (playGame (demoEnv fun _ => jsonAnswer {}) "plinko" demoApp).2.limitedGames
        = demoApp.limitedGames) ∧
    (playGame (demoEnv fun _ => errorAnswer "limit reached") "mines" demoApp).2.limitedGames.get
        .mines = (demoApp.limitedGames.get .mines
          || hasLimitError { status := some 200, error := some { message := some "limit reached" } }) ∧
    (playGame (demoEnv fun _ => errorAnswer "limit reached") "poker" demoApp).2.limitedGames
      = demoApp.limitedGames :=
  ⟨((playGame_limited_flag_sticky (demoEnv fun _ => jsonAnswer {}) "plinko" demoApp).1 .plinko
      { dest := "0xA1", data := "0x01", value := "0n" } { status := some 200 }
      (by decide) (by decide) (by decide)).2.2 (by decide),
   ((playGame_limited_flag_sticky (demoEnv fun _ => errorAnswer "limit reached") "mines" demoApp).1
      .mines { dest := "0xA3", data := "0x03", value := "0n" }
      { status := some 200, error := some { message := some "limit reached" } }
      (by decide) (by decide) (by decide)).1,
   (playGame_limited_flag_sticky (demoEnv fun _ => errorAnswer "limit reached") "poker" demoApp).2
      (Or.inl (by decide))⟩

/-! ## The mines claim -/

/-- What the two tests of `playMines` make of the claim answer: they never throw, and the
last status message depends on the nested error alone, whether or not the answer has an
error member. -/
theorem claimResponse_status (env : Env) (response : Body) (s : App) :
    (claimResponse env response s).1 = .ok () ∧
    (claimResponse env response s).2.gameStatus.get .mines =
      { message := if hashErrorTypes response then "Claim failed: " ++ render (hashDetails response)
                   else "Successfully played and claimed mine game.",
        waiting := env.toHumanTime 4000 } := by
  have hm : Game.ofName "mines" = some .mines := by decide
  unfold claimResponse
  cases he : response.error with
  | none =>
    cases hh : hashErrorTypes response <;> simp [gameWait, hm, wait, PerGame.set, PerGame.get]
  | some error =>
    cases hh : hashErrorTypes response <;> simp [gameWait, hm, wait, PerGame.set, PerGame.get]

/-- The two tests of `playMines` on the claim answer only wait: they send nothing. -/
theorem claimResponse_trace (env : Env) (response : Body) (s : App) :
    ∃ tail, (claimResponse env response s).2.trace = s.trace ++ tail ∧
      ∀ ev ∈ tail, Event.isRelay ev = false := by
  have hm : Game.ofName "mines" = some .mines := by decide
  unfold claimResponse
  cases he : response.error with
  | none =>
    cases hh : hashErrorTypes response
    · exact ⟨[.wait 4000 "Successfully played and claimed mine game."],
        by simp [gameWait, hm, wait, Event.isRelay]⟩
    · exact ⟨[.wait 4000 ("Claim failed: " ++ render (hashDetails response))],
        by simp [gameWait, hm, wait, Event.isRelay]⟩
  | some error =>
    cases hh : hashErrorTypes response
    · exact ⟨[.wait 4000 ("Failed to claim mine game: " ++ render error.message),
              .wait 4000 "Successfully played and claimed mine game."],
        by simp [gameWait, hm, wait, Event.isRelay]⟩
    · exact ⟨[.wait 4000 ("Failed to claim mine game: " ++ render error.message),
              .wait 4000 ("Claim failed: " ++ render (hashDetails response))],
        by simp [gameWait, hm, wait, Event.isRelay]⟩

/-- What `playMines` does after a mines play that returned with the flag unset, when
`App.fetch` returns the answer `b` for the claim: it returns, it has sent the one claim
`call` after the two waits and no other request, and the status it leaves is the success
message exactly when `b` has no nested error. -/
theorem playMines_claims_once (env : Env) (s s1 : App) (b : Body)
    (hp : playGame env "mines" s = (.ok (), s1)) (hl : s1.limitedGames.get .mines = false)
    (hf : fetch s1.baseUrl rpcUrl (env.http s1.sent) = .ok b) :
    (playMines env s).1 = .ok () ∧
    (playMines env s).2.gameStatus.get .mines =
      { message := if hashErrorTypes b then "Claim failed: " ++ render (hashDetails b)
                   else "Successfully played and claimed mine game.",
        waiting := env.toHumanTime 4000 } ∧
    ∃ tail, (playMines env s).2.trace =
        s1.trace ++ [.wait 4000 "Placed", .wait 4000 "Claiming mine game reward",
                     .request (claimRequest env s1) (.ok b)] ++ tail ∧
      ∀ ev ∈ tail, Event.isRelay ev = false := by
  have hm : Game.ofName "mines" = some .mines := by decide
  simp only [playMines, hp, hl, Bool.false_eq_true, if_false, gameWait, hm, wait, send,
    claimRequest, hf]
  have key : ∀ S : App, (claimResponse env b S).1 = .ok () ∧
      (claimResponse env b S).2.gameStatus.get .mines =
        { message := if hashErrorTypes b then "Claim failed: " ++ render (hashDetails b)
                     else "Successfully played and claimed mine game.",
          waiting := env.toHumanTime 4000 } ∧
      ∃ tail, (claimResponse env b S).2.trace = S.trace ++ tail ∧
        ∀ ev ∈ tail, Event.isRelay ev = false :=
    fun S => ⟨(claimResponse_status env b S).1, (claimResponse_status env b S).2,
      claimResponse_trace env b S⟩
  refine ⟨(key _).1, (key _).2.1, ?_⟩
  refine ((key _).2.2).imp fun tail h => ⟨h.1.trans ?_, h.2⟩
  simp

/-- C12, the code at the failing input: the mines `call` is accepted and the claim `call`
is answered with the error `claim rejected` and no nested error. `playMines` returns, the
trace shows the one claim `call` after the two waits, then the wait with the failure
message and right after it the wait with the success message, which is the status the
game is left with. -/
theorem playMines_claim_error_reported_as_success :
    (playMines claimRejectingEnv demoApp).1 = .ok () ∧
    (playMines claimRejectingEnv demoApp).2.gameStatus.get .mines =
      { message := "Successfully played and claimed mine game.", waiting := "4000ms" } ∧
    (playMines claimRejectingEnv demoApp).2.trace =
      [.wait 4000 "Playing game: [mines]",
       .request { url := rpcUrl, verb := "POST",
                  envelope := some { id := 4, params := .call { dest := "0xA3", data := "0x03", value := "0n" }
                                       (some "0xOwner") (some "0xABC") (some "0xPermitSig") } }
         (.ok { status := some 200 }),
       .wait 4000 "Successfully played game: [mines]",
       .wait 4000 "Placed",
       .wait 4000 "Claiming mine game reward",
       .request { url := rpcUrl, verb := "POST",
                  envelope := some { id := 5, params := .call { dest := "0xC0", data := claimData, value := "0n" }
                                       (some "0xOwner") (some "0xABC") (some "0xPermitSig") } }
         (.ok { status := some 200, error := some { message := some "claim rejected" } }),
       .wait 4000 "Failed to claim mine game: claim rejected",
       .wait 4000 "Successfully played and claimed mine game."] :=
  ⟨rfl, rfl, rfl⟩

end SonicArcade
